import Mathlib

/-!
Shallow embedding of the Avastar Blender add-on, modules
animesh.py, bom.py and performance.py, together with proofs about the
operators they define.

Modelling conventions:
* Blender's scene graph is modelled by the structure BState: the object,
  material and image collections of bpy.data, the name of the active object,
  and the two module-level performance caches of performance.py.
* Python object references (an armature modifier's target, a material slot)
  are modelled by names resolved through the corresponding collection;
  Blender guarantees such references resolve, which theorems assume where
  needed.
* Machine floats (weights, decimate ratio, socket default values) are
  modelled by rationals; none of the verified properties depends on
  floating-point rounding.
* time.time() timestamps are modelled by a logical clock BState.now.
* Each operator's execute method becomes a function BState → ExecOut
  returning the operator result, the list of (level, message) reports
  issued through self.report, and the successor state.
-/

namespace Avastar

/-- Result of a Blender operator execute method. -/
inductive OpResult
  | FINISHED
  | CANCELLED
  deriving Repr, DecidableEq

/-- A report issued via self.report: severity level and message. -/
abbrev Report := String × String

/-- One entry of MeshVertex.groups: a vertex-group index and a weight. -/
structure GroupAssign where
  group : Nat
  weight : ℚ
  deriving Repr, DecidableEq

/-- A mesh vertex; its index is its position in MeshData.vertices,
as in Blender. -/
structure Vertex where
  groups : List GroupAssign
  deriving Repr, DecidableEq

/-- A mesh polygon, as the list of its vertex indices. -/
structure MeshPolygon where
  verts : List Nat
  deriving Repr, DecidableEq

/-- Mesh datablock: vertices, polygons, UV layers and material slots
(slots hold material names). -/
structure MeshData where
  vertices : List Vertex
  polygons : List MeshPolygon
  uv_layers : List String
  material_slots : List String
  deriving Repr, DecidableEq

/-- An armature bone: its name and the use_deform flag. -/
structure Bone where
  name : String
  use_deform : Bool
  deriving Repr, DecidableEq

/-- Armature datablock. -/
structure ArmatureData where
  bones : List Bone
  deriving Repr, DecidableEq

/-- Object data: a mesh, an armature, or some other datablock type. -/
inductive ObjData
  | mesh (m : MeshData)
  | armature (a : ArmatureData)
  | other (ty : String)
  deriving Repr, DecidableEq

/-- A modifier on an object.  Only the fields the add-on reads or writes
are modelled; object is the name of an armature modifier's target. -/
structure Modifier where
  name : String
  type : String
  object : Option String := none
  decimate_type : String := "COLLAPSE"
  ratio : ℚ := 1
  use_collapse_triangulate : Bool := false
  deriving Repr, DecidableEq

/-- A shader node.  inputs maps an input socket name to the default_value
set on it; image is the name of the image assigned to a texture node. -/
structure ShaderNode where
  type : String
  name : String
  label : String := ""
  location : ℚ × ℚ := (0, 0)
  image : Option String := none
  inputs : List (String × ℚ) := []
  deriving Repr, DecidableEq

/-- A node link, identifying nodes by index in NodeTree.nodes. -/
structure NodeLink where
  from_node : Nat
  from_socket : String
  to_node : Nat
  to_socket : String
  deriving Repr, DecidableEq

/-- A shader node tree. -/
structure NodeTree where
  nodes : List ShaderNode
  links : List NodeLink
  deriving Repr, DecidableEq

/-- A material.  The node tree is modelled as always present (Blender
creates it lazily on first use); use_nodes is the flag the add-on reads
and writes. -/
structure Material where
  name : String
  use_nodes : Bool
  node_tree : NodeTree
  deriving Repr, DecidableEq

/-- An image datablock, as created by bpy.data.images.new. -/
structure Image where
  name : String
  width : Nat
  height : Nat
  alpha : Bool
  source : String
  deriving Repr, DecidableEq

/-- A scene object. -/
structure Object where
  name : String
  data : ObjData
  modifiers : List Modifier
  vertex_groups : List String
  mode : String := "OBJECT"
  deriving Repr, DecidableEq

/-- Entry of the performance mesh cache (performance.py, _mesh_cache). -/
structure MeshCacheEntry where
  vertex_count : Nat
  polygon_count : Nat
  timestamp : Nat
  deriving Repr, DecidableEq

/-- The modelled Blender state plus the module-level caches. -/
structure BState where
  objects : List Object
  materials : List Material
  images : List Image
  active_object : Option String
  mesh_cache : List (String × MeshCacheEntry) := []
  bone_cache : List (String × Nat) := []
  now : Nat := 0
  deriving Repr, DecidableEq

/-- Outcome of an operator execute: result, reports issued via self.report,
the successor state, and the warnings sent to log.warning. -/
structure ExecOut where
  result : OpResult
  reports : List Report
  state : BState
  log_warnings : List String := []
  deriving Repr, DecidableEq

/-- obj.type, derived from the datablock kind. -/
def Object.type (o : Object) : String :=
  match o.data with
  | .mesh _ => "MESH"
  | .armature _ => "ARMATURE"
  | .other ty => ty

/-- Look an object up by name in bpy.data.objects. -/
def findObject (s : BState) (nm : String) : Option Object :=
  s.objects.find? (fun o => o.name == nm)

/-- Look a material up by name (bpy.data.materials.get). -/
def findMaterial (s : BState) (nm : String) : Option Material :=
  s.materials.find? (fun m => m.name == nm)

/-- context.active_object. -/
def BState.active (s : BState) : Option Object :=
  s.active_object.bind (findObject s)

/-- Replace the object of the given name by the given object. -/
def updateObject (s : BState) (o : Object) : BState :=
  { s with objects := s.objects.map (fun p => if p.name == o.name then o else p) }

/-- Replace the material of the given name by the given material. -/
def updateMaterial (s : BState) (m : Material) : BState :=
  { s with materials := s.materials.map (fun p => if p.name == m.name then m else p) }

/-- armature.data.bones (empty for a non-armature datablock; an armature
modifier's target is always an armature object in Blender). -/
def Object.dataBones (o : Object) : List Bone :=
  match o.data with
  | .armature a => a.bones
  | _ => []

/-- The mesh datablock of an object (empty mesh for non-mesh data; all
uses are guarded by obj.type == MESH checks). -/
def Object.mesh (o : Object) : MeshData :=
  match o.data with
  | .mesh m => m
  | _ => ⟨[], [], [], []⟩

/-- Python substring test, sub in s. -/
def pyInStr (sub s : String) : Bool :=
  decide (sub.data <:+: s.data)

-- ==========================================================================
-- animesh.py
-- ==========================================================================

def ANIMESH_MAX_BONES : Nat := 110
def ANIMESH_MAX_TRIANGLES : Nat := 32768
def ANIMESH_MAX_COMPLEXITY : Nat := 16000

/-- The armature search loop shared by the animesh operators: the target
of the first armature modifier with a non-null object, resolved in the
scene. -/
def find_armature (s : BState) (obj : Object) : Option Object :=
  (obj.modifiers.findSome? fun m =>
    if m.type == "ARMATURE" then m.object else none).bind (findObject s)

/-- Deform-bone count: len([b for b in armature.data.bones if b.use_deform]). -/
def deformBoneCount (o : Object) : Nat :=
  (o.dataBones.filter (fun b => b.use_deform)).length

/-- Triangle count as computed in AVASTAR_OT_animesh_validate.execute:
sum(1 for f in bm.faces for _ in range(len(f.verts) - 2)); the inner
range is empty when a face has fewer than three vertices, which Nat
subtraction reproduces. -/
def tri_count (m : MeshData) : Nat :=
  (m.polygons.map (fun f => f.verts.length - 2)).sum

/-- Indices of vertices with no vertex-group assignment. -/
def unweightedVerts (m : MeshData) : List Nat :=
  (m.vertices.enum.filter (fun p => p.2.groups.isEmpty)).map (fun p => p.1)

/-- The issues list built by AVASTAR_OT_animesh_validate.execute.  Number
formatting uses plain decimal rendering (Python's thousands separators are
not modelled; no verified property depends on them). -/
def validateIssues (bone_count triangle_count : Nat) (unweighted : List Nat) :
    List String :=
  [if bone_count > ANIMESH_MAX_BONES then
     "❌ Too many bones: " ++ toString bone_count ++ "/" ++ toString ANIMESH_MAX_BONES
   else
     "✅ Bone count: " ++ toString bone_count ++ "/" ++ toString ANIMESH_MAX_BONES,
   if triangle_count > ANIMESH_MAX_TRIANGLES then
     "❌ Too many triangles: " ++ toString triangle_count ++ "/"
       ++ toString ANIMESH_MAX_TRIANGLES
   else
     "✅ Triangle count: " ++ toString triangle_count ++ "/"
       ++ toString ANIMESH_MAX_TRIANGLES,
   if !unweighted.isEmpty then
     "❌ Unweighted vertices: " ++ toString unweighted.length
   else
     "✅ All vertices weighted"]

/-- AVASTAR_OT_animesh_validate.execute. -/
def animesh_validate_execute (s : BState) : ExecOut :=
  match s.active with
  | none => ⟨.CANCELLED, [("ERROR", "Please select a mesh object")], s, []⟩
  | some obj =>
    if obj.type != "MESH" then
      ⟨.CANCELLED, [("ERROR", "Please select a mesh object")], s, []⟩
    else
      match find_armature s obj with
      | none => ⟨.CANCELLED, [("ERROR", "Mesh has no armature modifier")], s, []⟩
      | some armature =>
        let issues := validateIssues (deformBoneCount armature) (tri_count obj.mesh)
          (unweightedVerts obj.mesh)
        let report_text := String.intercalate "\n" issues
        let base := [(("INFO" : String), "Animesh Validation:\n" ++ report_text)]
        if issues.all (fun i => pyInStr "✅" i) then
          ⟨.FINISHED, base ++ [("INFO", "Mesh is Animesh compatible!")], s, []⟩
        else
          ⟨.FINISHED, base ++ [("WARNING", "Mesh has Animesh compatibility issues")], s, []⟩

/-- The used_bones set of AVASTAR_OT_animesh_optimize_bones.execute:
names of vertex groups referenced by some vertex through an assignment
with a valid group index. -/
def usedBoneNames (obj : Object) : List String :=
  obj.mesh.vertices.flatMap fun v =>
    v.groups.filterMap fun g => obj.vertex_groups[g.group]?

/-- AVASTAR_OT_animesh_optimize_bones.execute.  The edit_bones removal
loop is modelled as a filter over the bone list (each bone is visited
once and removed when it is a deform bone absent from used_bones); the
EDIT/OBJECT mode round-trip leaves the armature in OBJECT mode, and the
active object is restored to the mesh, as in the source. -/
def animesh_optimize_bones_execute (s : BState) (remove_unused : Bool) : ExecOut :=
  match s.active with
  | none => ⟨.CANCELLED, [("ERROR", "Please select a mesh object")], s, []⟩
  | some obj =>
    if obj.type != "MESH" then
      ⟨.CANCELLED, [("ERROR", "Please select a mesh object")], s, []⟩
    else
      match find_armature s obj with
      | none => ⟨.CANCELLED, [("ERROR", "Mesh has no armature modifier")], s, []⟩
      | some armature =>
        let initial_bone_count := deformBoneCount armature
        let (s1, armature1) :=
          if remove_unused then
            let used_bones := usedBoneNames obj
            let newBones := armature.dataBones.filter
              (fun b => !(b.use_deform && !used_bones.contains b.name))
            let armature1 :=
              { armature with data := .armature ⟨newBones⟩, mode := "OBJECT" }
            ({ updateObject s armature1 with active_object := some obj.name }, armature1)
          else (s, armature)
        let final_bone_count := deformBoneCount armature1
        let bones_removed := initial_bone_count - final_bone_count
        ⟨.FINISHED,
         [(("INFO" : String), "Removed " ++ toString bones_removed ++ " unused bones ("
            ++ toString final_bone_count ++ " remaining)")],
         s1, []⟩

/-- AVASTAR_OT_animesh_reduce_triangles.execute: appends a fresh decimate
modifier configured for collapse decimation at the given ratio.  The
percentage in the report is rounded to the nearest integer (approximating
Python percent formatting of the float ratio). -/
def animesh_reduce_triangles_execute (s : BState) (ratio : ℚ) : ExecOut :=
  match s.active with
  | none => ⟨.CANCELLED, [("ERROR", "Please select a mesh object")], s, []⟩
  | some obj =>
    if obj.type != "MESH" then
      ⟨.CANCELLED, [("ERROR", "Please select a mesh object")], s, []⟩
    else
      let decimate : Modifier :=
        { name := "Animesh_Decimate", type := "DECIMATE",
          decimate_type := "COLLAPSE", ratio := ratio,
          use_collapse_triangulate := true }
      let obj1 := { obj with modifiers := obj.modifiers ++ [decimate] }
      let pct : ℤ := round (ratio * 100)
      ⟨.FINISHED, [("INFO", "Added decimate modifier with " ++ toString pct ++ "% ratio")],
       updateObject s obj1, []⟩

-- ==========================================================================
-- bom.py
-- ==========================================================================

/-- Set the default_value of an input socket of a node. -/
def ShaderNode.setInput (n : ShaderNode) (sock : String) (v : ℚ) : ShaderNode :=
  { n with inputs := (sock, v) :: n.inputs.filter (fun p => p.1 != sock) }

/-- Read the default_value of an input socket of a node. -/
def ShaderNode.getInput (n : ShaderNode) (sock : String) : Option ℚ :=
  (n.inputs.find? (fun p => p.1 == sock)).map (fun p => p.2)

/-- nodes.get(name): index of the first node with the given name. -/
def NodeTree.getNodeIdx (t : NodeTree) (nm : String) : Option Nat :=
  (t.nodes.enum.find? (fun p => p.2.name == nm)).map (fun p => p.1)

/-- obj.active_material: the material of the first material slot (the
active slot; the add-on never moves the active-slot index), resolved in
bpy.data.materials. -/
def activeMaterial (s : BState) (o : Object) : Option Material :=
  o.mesh.material_slots.head?.bind (findMaterial s)

/-- AVASTAR_OT_bom_setup_material.execute.  nodes.clear() also drops all
links of the tree (their endpoints are gone). -/
def bom_setup_material_execute (s : BState) : ExecOut :=
  match s.active with
  | none => ⟨.CANCELLED, [("ERROR", "Please select a mesh object")], s, []⟩
  | some obj =>
    if obj.type != "MESH" then
      ⟨.CANCELLED, [("ERROR", "Please select a mesh object")], s, []⟩
    else if obj.mesh.uv_layers.isEmpty then
      ⟨.CANCELLED, [("ERROR", "Mesh has no UV maps. Add UV coordinates first.")], s, []⟩
    else
      let mat_name := obj.name ++ "_BoM"
      let (mat0, s0) :=
        match findMaterial s mat_name with
        | some m => (m, s)
        | none =>
          let m : Material :=
            { name := mat_name, use_nodes := true, node_tree := ⟨[], []⟩ }
          (m, { s with materials := s.materials ++ [m] })
      let bsdf : ShaderNode :=
        { type := "ShaderNodeBsdfPrincipled", name := "Principled BSDF",
          location := (0, 0) }
      let output : ShaderNode :=
        { type := "ShaderNodeOutputMaterial", name := "Material Output",
          location := (300, 0) }
      let bsdf1 := (bsdf.setInput "Specular" 0).setInput "Roughness" 1
      let tree : NodeTree := ⟨[bsdf1, output], [⟨0, "BSDF", 1, "Surface"⟩]⟩
      let mat1 : Material := { mat0 with node_tree := tree }
      let m := obj.mesh
      let slots1 :=
        if !m.material_slots.isEmpty then mat_name :: m.material_slots.tail
        else [mat_name]
      let obj1 := { obj with data := .mesh { m with material_slots := slots1 } }
      let s1 := updateObject (updateMaterial s0 mat1) obj1
      ⟨.FINISHED, [("INFO", "BoM material " ++ mat_name ++ " created successfully")], s1, []⟩

/-- AVASTAR_OT_bom_add_layer_slot.execute for a given layer_type. -/
def bom_add_layer_slot_execute (s : BState) (layer_type : String) : ExecOut :=
  match s.active with
  | none => ⟨.CANCELLED, [("ERROR", "Please select a mesh object")], s, []⟩
  | some obj =>
    if obj.type != "MESH" then
      ⟨.CANCELLED, [("ERROR", "Please select a mesh object")], s, []⟩
    else
      match activeMaterial s obj with
      | none =>
        ⟨.CANCELLED, [("ERROR", "No active material. Run Setup BoM Material first")], s, []⟩
      | some mat =>
        let (mat1, s1) :=
          if !mat.use_nodes then
            let m1 := { mat with use_nodes := true }
            (m1, updateMaterial s m1)
          else (mat, s)
        match mat1.node_tree.getNodeIdx "Principled BSDF" with
        | none => ⟨.CANCELLED, [("ERROR", "Material is not BoM compatible")], s1, []⟩
        | some bsdfIdx =>
          let img_name := obj.name ++ "_" ++ layer_type ++ "_BoM"
          let s2 :=
            if (s1.images.find? (fun i => i.name == img_name)).isNone then
              { s1 with images := s1.images ++
                  [{ name := img_name, width := 1024, height := 1024,
                     alpha := true, source := "GENERATED" }] }
            else s1
          let texIdx := mat1.node_tree.nodes.length
          let tex : ShaderNode :=
            { type := "ShaderNodeTexImage", name := "BoM_" ++ layer_type,
              label := "BoM " ++ layer_type, location := (-400, 0),
              image := some img_name }
          let tree1 : NodeTree :=
            ⟨mat1.node_tree.nodes ++ [tex],
             mat1.node_tree.links ++ [⟨texIdx, "Color", bsdfIdx, "Base Color"⟩]⟩
          let mat2 := { mat1 with node_tree := tree1 }
          ⟨.FINISHED, [("INFO", "Added " ++ layer_type ++ " BoM layer to material")],
           updateMaterial s2 mat2, []⟩

/-- AVASTAR_OT_bom_export_preview.execute. -/
def bom_export_preview_execute (s : BState) : ExecOut :=
  match s.active with
  | none => ⟨.CANCELLED, [("ERROR", "Please select a mesh object")], s, []⟩
  | some obj =>
    if obj.type != "MESH" then
      ⟨.CANCELLED, [("ERROR", "Please select a mesh object")], s, []⟩
    else
      match activeMaterial s obj with
      | none => ⟨.CANCELLED, [("ERROR", "No material to preview")], s, []⟩
      | some _ =>
        ⟨.FINISHED,
         [("INFO", "BoM preview generated (placeholder - requires full baking implementation)")],
         s, []⟩

-- ==========================================================================
-- performance.py
-- ==========================================================================

/-- clear_performance_caches: empties both module-level caches. -/
def clear_performance_caches (s : BState) : BState :=
  { s with mesh_cache := [], bone_cache := [] }

/-- get_cached_mesh_data: on a cache miss for obj.name the entry is
computed from the mesh and stored; on a hit the stored entry is returned
as is.  Returns the entry and the successor state. -/
def get_cached_mesh_data (s : BState) (obj : Object) : MeshCacheEntry × BState :=
  match s.mesh_cache.lookup obj.name with
  | some e => (e, s)
  | none =>
    let e : MeshCacheEntry :=
      { vertex_count := obj.mesh.vertices.length,
        polygon_count := obj.mesh.polygons.length,
        timestamp := s.now }
    (e, { s with mesh_cache := (obj.name, e) :: s.mesh_cache })

/-- The range(0, total_verts, chunk_size) slicing of
optimize_weight_calculation, as a list of chunks.  A zero chunk size is
mapped to no chunks (Python range would reject a zero step; all uses have
chunk_size at least 1). -/
def chunksOf (n : Nat) : List α → List (List α)
  | [] => []
  | a :: as =>
    if _h : n = 0 then []
    else (a :: as).take n :: chunksOf n ((a :: as).drop n)
  termination_by l => l.length
  decreasing_by
    simp only [List.length_drop, List.length_cons]
    omega

/-- Append pairs to the value stored under a given key, leaving other
entries alone. -/
def updAt (nm : String) (ys : List (Nat × ℚ)) (p : String × List (Nat × ℚ)) :
    String × List (Nat × ℚ) :=
  if p.1 == nm then (p.1, p.2 ++ ys) else p

/-- chunk_weights bookkeeping: record one (vertex index, weight) pair
under a group name, creating the key at the end on first use (Python
dict insertion order). -/
def addWeight (d : List (String × List (Nat × ℚ))) (nm : String) (w : Nat × ℚ) :
    List (String × List (Nat × ℚ)) :=
  if d.any (fun p => p.1 == nm) then d.map (updAt nm [w])
  else d ++ [(nm, [w])]

/-- One iteration of the inner assignment loop of
optimize_weight_calculation, at vertex index idx. -/
def groupStep (obj : Object) (bone_names : List String) (idx : Nat)
    (cw : List (String × List (Nat × ℚ))) (g : GroupAssign) :
    List (String × List (Nat × ℚ)) :=
  match obj.vertex_groups[g.group]? with
  | some vg_name =>
    if bone_names.contains vg_name then addWeight cw vg_name (idx, g.weight)
    else cw
  | none => cw

/-- One iteration of the per-vertex loop of optimize_weight_calculation. -/
def vertexStep (obj : Object) (bone_names : List String)
    (cw : List (String × List (Nat × ℚ))) (p : Nat × Vertex) :
    List (String × List (Nat × ℚ)) :=
  p.2.groups.foldl (groupStep obj bone_names p.1) cw

/-- The per-chunk loop of optimize_weight_calculation over a chunk of
(vertex index, vertex) pairs: group assignments with a valid group index
whose group name is in bone_names are collected per group name. -/
def processChunk (obj : Object) (bone_names : List String)
    (chunk : List (Nat × Vertex)) : List (String × List (Nat × ℚ)) :=
  chunk.foldl (vertexStep obj bone_names) []

/-- One iteration of the merge loop of optimize_weight_calculation:
extend final_weights with one key of a chunk result, creating a missing
key at the end. -/
def mergeStep (fw : List (String × List (Nat × ℚ)))
    (p : String × List (Nat × ℚ)) : List (String × List (Nat × ℚ)) :=
  if fw.any (fun q => q.1 == p.1) then fw.map (updAt p.1 p.2)
  else fw ++ [p]

/-- The merge loop of optimize_weight_calculation. -/
def mergeWeights (acc chunk : List (String × List (Nat × ℚ))) :
    List (String × List (Nat × ℚ)) :=
  chunk.foldl mergeStep acc

/-- optimize_weight_calculation: chunked weight collection.  Vertices are
paired with their indices (v.index is the position in the vertex list). -/
def optimize_weight_calculation (obj : Object) (bone_names : List String)
    (chunk_size : Nat) : List (String × List (Nat × ℚ)) :=
  let vertices := obj.mesh.vertices.enum
  let results := (chunksOf chunk_size vertices).map (processChunk obj bone_names)
  results.foldl mergeWeights []

/-- The record appended by one turn of the inner assignment loop at
vertex index idx: the (group name, (vertex index, weight)) event, when
the group index is valid and the group name is in bone_names. -/
def assignEvent (obj : Object) (bone_names : List String) (idx : Nat)
    (g : GroupAssign) : Option (String × (Nat × ℚ)) :=
  match obj.vertex_groups[g.group]? with
  | some vg_name =>
    if bone_names.contains vg_name then some (vg_name, (idx, g.weight))
    else none
  | none => none

/-- All append events of a list of (index, vertex) pairs, in loop order. -/
def weightEvents (obj : Object) (bone_names : List String)
    (chunk : List (Nat × Vertex)) : List (String × (Nat × ℚ)) :=
  chunk.flatMap (fun p => p.2.groups.filterMap (assignEvent obj bone_names p.1))

/-- Apply one append event to a weight dictionary. -/
def addEvent (d : List (String × List (Nat × ℚ))) (e : String × (Nat × ℚ)) :
    List (String × List (Nat × ℚ)) :=
  addWeight d e.1 e.2

/-- The keys of a weight dictionary are distinct. -/
def nodupKeys (d : List (String × List (Nat × ℚ))) : Prop :=
  (d.map Prod.fst).Nodup

/-- Look up the pair list stored under a name in a weight dictionary. -/
def lookupA : List (String × List (Nat × ℚ)) → String → Option (List (Nat × ℚ))
  | [], _ => none
  | p :: d, nm => if p.1 == nm then some p.2 else lookupA d nm

/-- Combine a previous lookup result with newly collected pairs: an
absent key stays absent only when nothing was collected. -/
def collectOpt : Option (List (Nat × ℚ)) → List (Nat × ℚ) →
    Option (List (Nat × ℚ))
  | some xs, l => some (xs ++ l)
  | none, [] => none
  | none, l => some l

/-- The (vertex index, weight) pairs collected under one group name over
the whole mesh, in vertex order. -/
def groupPairs (obj : Object) (bone_names : List String) (nm : String) :
    List (Nat × ℚ) :=
  ((weightEvents obj bone_names obj.mesh.vertices.enum).filter
    (fun e => e.1 == nm)).map Prod.snd

/-- AVASTAR_OT_performance_profile.execute. -/
def performance_profile_execute (s : BState) : ExecOut :=
  match s.active with
  | none => ⟨.CANCELLED, [("ERROR", "No active object")], s, []⟩
  | some obj =>
    let (report1, warnings1, s1) :=
      if obj.type == "MESH" then
        let ds := get_cached_mesh_data s obj
        let vcount := ds.1.vertex_count
        let pcount := ds.1.polygon_count
        let mod_count := obj.modifiers.length
        let vg_count := obj.vertex_groups.length
        (["Vertices: " ++ toString vcount, "Polygons: " ++ toString pcount,
          "Modifiers: " ++ toString mod_count, "Weight Groups: " ++ toString vg_count],
         (if vcount > 50000 then
            ["⚠️ High vertex count (" ++ toString vcount ++ "). Consider LOD optimization."]
          else []) ++
         (if mod_count > 5 then
            ["⚠️ Many modifiers (" ++ toString mod_count ++ "). May impact viewport performance."]
          else []) ++
         (if vg_count > 100 then
            ["⚠️ Many weight groups (" ++ toString vg_count ++ "). Animesh limit is 110 bones."]
          else []),
         ds.2)
      else ([], [], s)
    let armature := if obj.type == "MESH" then find_armature s obj else none
    let (report2, warnings2) :=
      match armature with
      | some arm =>
        let bone_count := arm.dataBones.length
        let deform_count := deformBoneCount arm
        (["Total Bones: " ++ toString bone_count, "Deform Bones: " ++ toString deform_count],
         if deform_count > 110 then
           ["⚠️ Exceeds Animesh bone limit (" ++ toString deform_count ++ "/110)"]
         else [])
      | none => ([], [])
    ⟨.FINISHED, [("INFO", String.intercalate "\n" (report1 ++ report2))], s1,
     warnings1 ++ warnings2⟩

/-- Weight-cleaning pass of AVASTAR_OT_performance_optimize_scene.execute:
drop every assignment with weight below 0.001 (the rational mkRat 1 1000)
and count the removals.
The loop iterates over a snapshot of each vertex's assignments; each
vertex references a group at most once (a Blender invariant), so the
per-assignment removals amount to a filter. -/
def cleanWeightsPhase (m : MeshData) : MeshData × Nat :=
  ({ m with vertices :=
      m.vertices.map (fun v => ⟨v.groups.filter (fun g => !(g.weight < mkRat 1 1000))⟩) },
   (m.vertices.map (fun v => (v.groups.filter (fun g => g.weight < mkRat 1 1000)).length)).sum)

/-- The used_groups set: group indices referenced by some vertex. -/
def usedGroupIdxs (vs : List Vertex) : List Nat :=
  vs.flatMap (fun v => v.groups.map (fun g => g.group))

/-- Removal of vertex group i: the group leaves the name list and Blender
renumbers every assignment referencing a higher index down by one. -/
def removeGroupAt (i : Nat) (gs : List String) (vs : List Vertex) :
    List String × List Vertex :=
  (gs.eraseIdx i,
   vs.map (fun v => ⟨v.groups.map (fun g =>
     if i < g.group then { g with group := g.group - 1 } else g)⟩))

/-- The descending removal loop for unused vertex groups: the call with
counter i+1 processes index i.  used holds the group indices referenced
before the loop started, exactly as in the source. -/
def removeUnusedLoop (used : List Nat) :
    Nat → List String → List Vertex → Nat → List String × List Vertex × Nat
  | 0, gs, vs, r => (gs, vs, r)
  | i + 1, gs, vs, r =>
    if used.contains i then removeUnusedLoop used i gs vs r
    else
      let p := removeGroupAt i gs vs
      removeUnusedLoop used i p.1 p.2 (r + 1)

/-- AVASTAR_OT_performance_optimize_scene.execute. -/
def performance_optimize_scene_execute (s : BState)
    (clean_weights remove_unused_groups optimize_modifiers : Bool) : ExecOut :=
  match s.active with
  | none => ⟨.CANCELLED, [("ERROR", "Please select a mesh object")], s, []⟩
  | some obj =>
    if obj.type != "MESH" then
      ⟨.CANCELLED, [("ERROR", "Please select a mesh object")], s, []⟩
    else
      let m0 := obj.mesh
      let cw := if clean_weights then cleanWeightsPhase m0 else (m0, 0)
      let m1 := cw.1
      let cleaned := cw.2
      let changes1 : List String :=
        if clean_weights then
          if cleaned > 0 then ["Cleaned " ++ toString cleaned ++ " zero-weight assignments"] else []
        else []
      let ru :=
        if remove_unused_groups then
          let used := usedGroupIdxs m1.vertices
          removeUnusedLoop used obj.vertex_groups.length obj.vertex_groups m1.vertices 0
        else (obj.vertex_groups, m1.vertices, 0)
      let gs2 := ru.1
      let vs2 := ru.2.1
      let removed := ru.2.2
      let changes2 : List String :=
        if remove_unused_groups then
          if removed > 0 then ["Removed " ++ toString removed ++ " unused weight groups"] else []
        else []
      let om :=
        if optimize_modifiers then
          let arm_mods := obj.modifiers.filter (fun mm => mm.type == "ARMATURE")
          let nonarm := obj.modifiers.filter (fun mm => mm.type != "ARMATURE")
          let n := arm_mods.length
          (nonarm ++ arm_mods,
           if !arm_mods.isEmpty then
             ["Optimized modifier stack (" ++ toString n ++ " armature mods)"]
           else [])
        else (obj.modifiers, [])
      let changes := changes1 ++ changes2 ++ om.2 ++ ["Cleared performance caches"]
      let obj1 := { obj with data := .mesh { m1 with vertices := vs2 },
                             vertex_groups := gs2, modifiers := om.1 }
      let s1 := clear_performance_caches (updateObject s obj1)
      let msg :=
        if !changes.isEmpty then String.intercalate " | " changes
        else "No optimizations needed"
      ⟨.FINISHED, [("INFO", msg)], s1, []⟩

-- ==========================================================================
-- Helper lemmas
-- ==========================================================================

theorem singleton_infix {c : Char} {l : List Char} : [c] <:+: l ↔ c ∈ l := by
  constructor
  · rintro ⟨s, t, rfl⟩; simp
  · intro h
    obtain ⟨a, b, rfl⟩ := List.append_of_mem h
    exact ⟨a, b, by simp⟩

theorem pyInStr_check (x : String) : pyInStr "✅" x = true ↔ '✅' ∈ x.data := by
  have h : ("✅" : String).data = ['✅'] := rfl
  simp only [pyInStr, h, decide_eq_true_eq]
  exact singleton_infix

theorem toDigitsCore_no_check (fuel : Nat) : ∀ (n : Nat) (ds : List Char), '✅' ∉ ds →
    '✅' ∉ Nat.toDigitsCore 10 fuel n ds := by
  induction fuel with
  | zero => intro n ds h; simpa [Nat.toDigitsCore] using h
  | succ f ih =>
    intro n ds h
    rw [Nat.toDigitsCore]
    have hd : Nat.digitChar (n % 10) ≠ '✅' := by
      have hlt : n % 10 < 10 := Nat.mod_lt _ (by norm_num)
      interval_cases hh : (n % 10) <;> decide
    split
    · simp [h, Ne.symm hd]
    · exact ih _ _ (by simp [h, Ne.symm hd])

theorem natToString_no_check (n : Nat) : '✅' ∉ (toString n).data := by
  show '✅' ∉ Nat.toDigitsCore 10 (n + 1) n []
  exact toDigitsCore_no_check _ _ _ (by simp)

theorem no_check_append {a b : String} (ha : '✅' ∉ a.data) (hb : '✅' ∉ b.data) :
    '✅' ∉ (a ++ b).data := by
  simp [String.data_append, ha, hb]

theorem check_mem_left {a : String} (b : String) (ha : '✅' ∈ a.data) :
    '✅' ∈ (a ++ b).data := by
  simp [String.data_append, ha]

theorem pyInStr_ite (c : Prop) [Decidable c] (bad good : String)
    (hb : '✅' ∉ bad.data) (hg : '✅' ∈ good.data) :
    (pyInStr "✅" (if c then bad else good) = true) ↔ ¬ c := by
  by_cases h : c <;> simp [h, pyInStr_check, hb, hg]

theorem validation_header_ne (x : String) :
    "Animesh Validation:\n" ++ x ≠ "Mesh is Animesh compatible!" := by
  intro h
  have h2 := congrArg String.data h
  rw [String.data_append] at h2
  have e1 : ("Animesh Validation:\n" : String).data
      = 'A' :: ("nimesh Validation:\n" : String).data := rfl
  have e2 : ("Mesh is Animesh compatible!" : String).data
      = 'M' :: ("esh is Animesh compatible!" : String).data := rfl
  rw [e1, e2] at h2
  simp [List.cons_append] at h2

/-- A find-first-by-name list after replacing every element of a given name. -/
theorem find?_replace {α : Type} (key : α → String) {l : List α} {nm : String} (x : α)
    (h : (l.find? (fun p => key p == nm)).isSome = true) (he : key x = nm) :
    (l.map (fun p => if key p == key x then x else p)).find? (fun p => key p == nm)
      = some x := by
  induction l with
  | nil => simp [List.find?] at h
  | cons p t ih =>
    by_cases hp : key p = nm
    · have hc : (key p == key x) = true := by simp [hp, he]
      simp only [List.map_cons, hc, if_pos]
      have : (key x == nm) = true := by simp [he]
      simp [List.find?, this]
    · have hc : (key p == key x) = false := by
        simp [he]; exact hp
      have hpf : (key p == nm) = false := by simp [hp]
      simp only [List.map_cons, hc, Bool.false_eq_true, if_false]
      rw [List.find?] at h ⊢
      simp only [hpf] at h ⊢
      exact ih h

theorem findObject_name {s : BState} {nm : String} {o : Object}
    (h : findObject s nm = some o) : o.name = nm := by
  have := List.find?_some h
  simpa using this

theorem findMaterial_name {s : BState} {nm : String} {m : Material}
    (h : findMaterial s nm = some m) : m.name = nm := by
  have := List.find?_some h
  simpa using this

theorem active_findObject {s : BState} {o : Object} (h : s.active = some o) :
    findObject s o.name = some o := by
  unfold BState.active at h
  cases hao : s.active_object with
  | none => rw [hao] at h; simp at h
  | some nm =>
    rw [hao] at h
    simp only [Option.some_bind] at h
    have := findObject_name h
    rw [this]
    exact h

theorem findObject_update {s : BState} {o1 : Object} {nm : String}
    (h : (findObject s nm).isSome = true) (he : o1.name = nm) :
    findObject (updateObject s o1) nm = some o1 := by
  unfold findObject updateObject at *
  exact find?_replace Object.name o1 h he

theorem findMaterial_update {s : BState} {m1 : Material} {nm : String}
    (h : (findMaterial s nm).isSome = true) (he : m1.name = nm) :
    findMaterial (updateMaterial s m1) nm = some m1 := by
  unfold findMaterial updateMaterial at *
  exact find?_replace Material.name m1 h he

theorem findMaterial_updateObject (s : BState) (o : Object) (nm : String) :
    findMaterial (updateObject s o) nm = findMaterial s nm := rfl

theorem findObject_updateMaterial (s : BState) (m : Material) (nm : String) :
    findObject (updateMaterial s m) nm = findObject s nm := rfl

theorem forall_mem_enumFrom_snd {α : Type} (P : α → Prop) (l : List α) :
    ∀ n, (∀ p ∈ l.enumFrom n, P p.2) ↔ (∀ v ∈ l, P v) := by
  induction l with
  | nil => simp
  | cons v t ih =>
    intro n
    simp only [List.enumFrom, List.mem_cons, forall_eq_or_imp]
    rw [ih (n + 1)]

theorem forall_mem_enum_snd {α : Type} (P : α → Prop) (l : List α) :
    (∀ p ∈ l.enum, P p.2) ↔ (∀ v ∈ l, P v) :=
  forall_mem_enumFrom_snd P l 0

theorem unweightedVerts_eq_nil {m : MeshData} :
    unweightedVerts m = [] ↔ ∀ v ∈ m.vertices, v.groups ≠ [] := by
  unfold unweightedVerts
  rw [List.map_eq_nil_iff, List.filter_eq_nil_iff]
  rw [show (∀ p ∈ m.vertices.enum, ¬(p.2.groups.isEmpty = true)) ↔
        (∀ v ∈ m.vertices, ¬(v.groups.isEmpty = true)) from
      forall_mem_enum_snd (fun v => ¬(v.groups.isEmpty = true)) m.vertices]
  simp [List.isEmpty_iff]

theorem validateIssues_all (bc tc : Nat) (uw : List Nat) :
    ((validateIssues bc tc uw).all (fun i => pyInStr "✅" i) = true) ↔
      (bc ≤ ANIMESH_MAX_BONES ∧ tc ≤ ANIMESH_MAX_TRIANGLES ∧ uw.isEmpty = true) := by
  have h1 := pyInStr_ite (bc > ANIMESH_MAX_BONES)
    ("❌ Too many bones: " ++ toString bc ++ "/" ++ toString ANIMESH_MAX_BONES)
    ("✅ Bone count: " ++ toString bc ++ "/" ++ toString ANIMESH_MAX_BONES)
    (no_check_append (no_check_append (no_check_append (by decide)
      (natToString_no_check bc)) (by decide)) (natToString_no_check ANIMESH_MAX_BONES))
    (check_mem_left _ (check_mem_left _ (check_mem_left _ (by decide))))
  have h2 := pyInStr_ite (tc > ANIMESH_MAX_TRIANGLES)
    ("❌ Too many triangles: " ++ toString tc ++ "/" ++ toString ANIMESH_MAX_TRIANGLES)
    ("✅ Triangle count: " ++ toString tc ++ "/" ++ toString ANIMESH_MAX_TRIANGLES)
    (no_check_append (no_check_append (no_check_append (by decide)
      (natToString_no_check tc)) (by decide)) (natToString_no_check ANIMESH_MAX_TRIANGLES))
    (check_mem_left _ (check_mem_left _ (check_mem_left _ (by decide))))
  have h3 := pyInStr_ite ((!uw.isEmpty) = true)
    ("❌ Unweighted vertices: " ++ toString uw.length)
    ("✅ All vertices weighted")
    (no_check_append (by decide) (natToString_no_check uw.length))
    (by decide)
  simp only [validateIssues, List.all_cons, List.all_nil, Bool.and_eq_true, Bool.and_true]
  rw [h1, h2, h3]
  rw [Nat.not_lt, Nat.not_lt]
  constructor
  · rintro ⟨a, b, c⟩
    refine ⟨a, b, ?_⟩
    cases he : uw.isEmpty
    · exact absurd (by simp [he]) c
    · rfl
  · rintro ⟨a, b, c⟩
    exact ⟨a, b, by simp [c]⟩

/-- C1: for every active mesh object with an armature modifier whose target
resolves, avastar.animesh_validate returns FINISHED, and it reports
"Mesh is Animesh compatible!" if and only if the armature has at most 110
deform bones, the mesh has at most 32768 triangles, and every vertex has
at least one vertex-group assignment. -/
theorem C1_animesh_validate (s : BState) (obj armature : Object)
    (hact : s.active = some obj) (hmesh : obj.type = "MESH")
    (harm : find_armature s obj = some armature) :
    (animesh_validate_execute s).result = .FINISHED ∧
    (((("INFO" : String), ("Mesh is Animesh compatible!" : String)) ∈
        (animesh_validate_execute s).reports) ↔
      (deformBoneCount armature ≤ ANIMESH_MAX_BONES ∧
       tri_count obj.mesh ≤ ANIMESH_MAX_TRIANGLES ∧
       ∀ v ∈ obj.mesh.vertices, v.groups ≠ [])) := by
  unfold animesh_validate_execute
  rw [hact]
  simp only [hmesh, harm, bne_self_eq_false, Bool.false_eq_true, if_false]
  by_cases hall : ((validateIssues (deformBoneCount armature) (tri_count obj.mesh)
      (unweightedVerts obj.mesh)).all (fun i => pyInStr "✅" i)) = true
  · rw [if_pos hall]
    have hc := (validateIssues_all _ _ _).mp hall
    refine ⟨rfl, ?_⟩
    simp only [List.mem_append, List.mem_singleton, List.mem_cons]
    constructor
    · intro _
      refine ⟨hc.1, hc.2.1, ?_⟩
      rw [← unweightedVerts_eq_nil, ← List.isEmpty_iff]
      exact hc.2.2
    · intro _
      simp
  · rw [if_neg hall]
    refine ⟨rfl, ?_⟩
    constructor
    · intro hmem
      simp only [List.mem_append, List.mem_singleton, List.mem_cons,
        List.not_mem_nil, or_false] at hmem
      rcases hmem with hmem | hmem
      · exact absurd (congrArg Prod.snd hmem).symm (validation_header_ne _)
      · exact absurd (congrArg Prod.fst hmem) (by decide)
    · rintro ⟨a, b, c⟩
      exact absurd ((validateIssues_all _ _ _).mpr
        ⟨a, b, by rw [List.isEmpty_iff, unweightedVerts_eq_nil]; exact c⟩) hall

-- Concrete sample scenes used by witnesses and counterexamples.

/-- Sample armature object: two deform bones, one control bone. -/
def wArm : Object :=
  { name := "Arm",
    data := .armature ⟨[⟨"Bone1", true⟩, ⟨"Bone2", true⟩, ⟨"Ctrl", false⟩]⟩,
    modifiers := [], vertex_groups := [] }

/-- Sample rigged mesh object: two weighted vertices, two polygons. -/
def wCube : Object :=
  { name := "Cube",
    data := .mesh
      { vertices := [⟨[⟨0, mkRat 1 2⟩]⟩, ⟨[⟨1, 1⟩]⟩],
        polygons := [⟨[0, 1, 2]⟩, ⟨[0, 1, 2, 3]⟩],
        uv_layers := ["UVMap"], material_slots := [] },
    modifiers := [{ name := "Armature", type := "ARMATURE", object := some "Arm" }],
    vertex_groups := ["Bone1", "Bone2"] }

/-- Sample scene: the rigged mesh is active. -/
def wState : BState :=
  { objects := [wCube, wArm], materials := [], images := [],
    active_object := some "Cube" }

/-- Witness for C1 at a concrete scene. -/
theorem C1_animesh_validate_witness :
    wState.active = some wCube ∧ wCube.type = "MESH" ∧
    find_armature wState wCube = some wArm ∧
    ((animesh_validate_execute wState).result = .FINISHED ∧
     (((("INFO" : String), ("Mesh is Animesh compatible!" : String)) ∈
        (animesh_validate_execute wState).reports) ↔
      (deformBoneCount wArm ≤ ANIMESH_MAX_BONES ∧
       tri_count wCube.mesh ≤ ANIMESH_MAX_TRIANGLES ∧
       ∀ v ∈ wCube.mesh.vertices, v.groups ≠ []))) :=
  ⟨rfl, rfl, rfl, C1_animesh_validate wState wCube wArm rfl rfl rfl⟩

theorem findObject_set_active (s : BState) (a : Option String) (nm : String) :
    findObject { s with active_object := a } nm = findObject s nm := rfl

theorem mem_usedBoneNames {obj : Object} {nm : String} :
    nm ∈ usedBoneNames obj ↔
      ∃ v ∈ obj.mesh.vertices, ∃ g ∈ v.groups,
        obj.vertex_groups[g.group]? = some nm := by
  simp [usedBoneNames, List.mem_flatMap, List.mem_filterMap]

/-- C7: with remove_unused enabled, animesh_optimize_bones removes exactly
the deform bones whose names are not referenced (through a valid group
index) by any vertex of the mesh; control bones survive, and the reported
count is the initial minus the final deform-bone count. -/
theorem C7_optimize_bones (s : BState) (obj armature : Object)
    (hact : s.active = some obj) (hmesh : obj.type = "MESH")
    (harm : find_armature s obj = some armature) :
    (animesh_optimize_bones_execute s true).result = .FINISHED ∧
    (∀ nm, nm ∈ usedBoneNames obj ↔
      ∃ v ∈ obj.mesh.vertices, ∃ g ∈ v.groups,
        obj.vertex_groups[g.group]? = some nm) ∧
    ∃ arm1, findObject (animesh_optimize_bones_execute s true).state armature.name
        = some arm1 ∧
      arm1.dataBones = armature.dataBones.filter
        (fun b => !(b.use_deform && !(usedBoneNames obj).contains b.name)) ∧
      (∀ b ∈ armature.dataBones, b.use_deform = false → b ∈ arm1.dataBones) ∧
      (∀ b ∈ armature.dataBones, b.use_deform = true →
        (b ∈ arm1.dataBones ↔ b.name ∈ usedBoneNames obj)) ∧
      (animesh_optimize_bones_execute s true).reports =
        [(("INFO" : String),
          "Removed " ++ toString (deformBoneCount armature - deformBoneCount arm1)
            ++ " unused bones (" ++ toString (deformBoneCount arm1) ++ " remaining)")] := by
  have hobjfind : findObject s obj.name = some obj := active_findObject hact
  obtain ⟨tgt, htgt, hres⟩ := Option.bind_eq_some.mp harm
  have hname : armature.name = tgt := findObject_name hres
  unfold animesh_optimize_bones_execute
  rw [hact]
  simp only [hmesh, harm, bne_self_eq_false, Bool.false_eq_true, if_false, if_true]
  refine ⟨trivial, fun nm => mem_usedBoneNames, ?_⟩
  refine ⟨{ armature with
      data := .armature ⟨armature.dataBones.filter
        (fun b => !(b.use_deform && !(usedBoneNames obj).contains b.name))⟩,
      mode := "OBJECT" }, ?_, rfl, ?_, ?_, rfl⟩
  · rw [findObject_set_active]
    exact findObject_update (by rw [hname, hres]; rfl) rfl
  · intro b hb hnd
    simp only [Object.dataBones, List.mem_filter]
    exact ⟨hb, by simp [hnd]⟩
  · intro b hb hd
    have e : (({ armature with
        data := .armature ⟨armature.dataBones.filter
          (fun b => !(b.use_deform && !(usedBoneNames obj).contains b.name))⟩,
        mode := "OBJECT" } : Object)).dataBones
        = armature.dataBones.filter
          (fun b => !(b.use_deform && !(usedBoneNames obj).contains b.name)) := rfl
    rw [e, List.mem_filter]
    constructor
    · rintro ⟨-, hpred⟩
      simp only [hd, Bool.true_and, Bool.not_not] at hpred
      exact List.elem_iff.mp hpred
    · intro hmem
      refine ⟨hb, ?_⟩
      simp only [hd, Bool.true_and, Bool.not_not]
      exact List.elem_iff.mpr hmem

/-- Witness for C7 at a concrete scene. -/
theorem C7_optimize_bones_witness :
    wState.active = some wCube ∧ wCube.type = "MESH" ∧
    find_armature wState wCube = some wArm ∧
    ((animesh_optimize_bones_execute wState true).result = .FINISHED ∧
     (∀ nm, nm ∈ usedBoneNames wCube ↔
       ∃ v ∈ wCube.mesh.vertices, ∃ g ∈ v.groups,
         wCube.vertex_groups[g.group]? = some nm) ∧
     ∃ arm1, findObject (animesh_optimize_bones_execute wState true).state wArm.name
         = some arm1 ∧
       arm1.dataBones = wArm.dataBones.filter
         (fun b => !(b.use_deform && !(usedBoneNames wCube).contains b.name)) ∧
       (∀ b ∈ wArm.dataBones, b.use_deform = false → b ∈ arm1.dataBones) ∧
       (∀ b ∈ wArm.dataBones, b.use_deform = true →
         (b ∈ arm1.dataBones ↔ b.name ∈ usedBoneNames wCube)) ∧
       (animesh_optimize_bones_execute wState true).reports =
         [(("INFO" : String),
           "Removed " ++ toString (deformBoneCount wArm - deformBoneCount arm1)
             ++ " unused bones (" ++ toString (deformBoneCount arm1) ++ " remaining)")]) :=
  ⟨rfl, rfl, rfl, C7_optimize_bones wState wCube wArm rfl rfl rfl⟩

/-- C2 (amended): on an active mesh object, animesh_reduce_triangles with a
ratio in [0.01, 1] returns FINISHED after appending one decimate modifier
(COLLAPSE, the given ratio, collapse-triangulate enabled); the stored mesh
data, and hence its triangle count, is unchanged — the operator itself
performs no decimation. -/
theorem C2_reduce_triangles_adds_modifier (s : BState) (obj : Object) (r : ℚ)
    (hact : s.active = some obj) (hmesh : obj.type = "MESH")
    (hr1 : mkRat 1 100 ≤ r) (hr2 : r ≤ 1) :
    (animesh_reduce_triangles_execute s r).result = .FINISHED ∧
    ∃ obj1, findObject (animesh_reduce_triangles_execute s r).state obj.name = some obj1 ∧
      obj1.modifiers = obj.modifiers ++
        [{ name := "Animesh_Decimate", type := "DECIMATE",
           decimate_type := "COLLAPSE", ratio := r,
           use_collapse_triangulate := true }] ∧
      obj1.mesh = obj.mesh ∧
      tri_count obj1.mesh = tri_count obj.mesh := by
  have hobjfind : findObject s obj.name = some obj := active_findObject hact
  unfold animesh_reduce_triangles_execute
  rw [hact]
  simp only [hmesh, bne_self_eq_false, Bool.false_eq_true, if_false]
  refine ⟨trivial, { obj with modifiers := obj.modifiers ++
    [{ name := "Animesh_Decimate", type := "DECIMATE",
       decimate_type := "COLLAPSE", ratio := r,
       use_collapse_triangulate := true }] }, ?_, rfl, rfl, rfl⟩
  exact findObject_update (by rw [hobjfind]; rfl) rfl

/-- Witness for the amended C2 at a concrete scene. -/
theorem C2_reduce_triangles_witness :
    wState.active = some wCube ∧ wCube.type = "MESH" ∧
    mkRat 1 100 ≤ mkRat 1 2 ∧ mkRat 1 2 ≤ (1 : ℚ) ∧
    ((animesh_reduce_triangles_execute wState (mkRat 1 2)).result = .FINISHED ∧
     ∃ obj1, findObject (animesh_reduce_triangles_execute wState (mkRat 1 2)).state
         wCube.name = some obj1 ∧
       obj1.modifiers = wCube.modifiers ++
         [{ name := "Animesh_Decimate", type := "DECIMATE",
            decimate_type := "COLLAPSE", ratio := mkRat 1 2,
            use_collapse_triangulate := true }] ∧
       obj1.mesh = wCube.mesh ∧
       tri_count obj1.mesh = tri_count wCube.mesh) :=
  ⟨rfl, rfl, by decide, by decide,
   C2_reduce_triangles_adds_modifier wState wCube (mkRat 1 2) rfl rfl
     (by decide) (by decide)⟩

/-- Mesh object holding 32769 triangles, one over the Animesh limit. -/
def bigMesh : Object :=
  { name := "Big",
    data := .mesh { vertices := [], polygons := List.replicate 32769 ⟨[0, 1, 2]⟩,
                    uv_layers := [], material_slots := [] },
    modifiers := [], vertex_groups := [] }

/-- Scene whose active object is the over-limit mesh. -/
def bigState : BState :=
  { objects := [bigMesh], materials := [], images := [], active_object := some "Big" }

/-- The over-limit mesh counts 32769 triangles. -/
theorem tri_count_bigMesh : tri_count bigMesh.mesh = 32769 := by
  rw [show tri_count bigMesh.mesh
      = (List.map (fun f => f.verts.length - 2) bigMesh.mesh.polygons).sum from rfl]
  rw [show bigMesh.mesh.polygons = List.replicate 32769 ⟨[0, 1, 2]⟩ from rfl,
    List.map_replicate, List.sum_replicate]
  rw [show (MeshPolygon.mk [0, 1, 2]).verts.length - 2 = 1 from rfl, smul_eq_mul, mul_one]

/-- The object state after running the operator on the over-limit scene. -/
def bigMesh1 : Object :=
  { bigMesh with modifiers := bigMesh.modifiers ++
      [{ name := "Animesh_Decimate", type := "DECIMATE",
         decimate_type := "COLLAPSE", ratio := mkRat 1 2,
         use_collapse_triangulate := true }] }

/-- C2 counterexample: on an active mesh whose triangle count 32769 exceeds
the 32768 limit, running the operator with ratio 0.5 leaves the stored
triangle count at 32769, which is not bounded by ratio times the previous
count — the triangle count is not reduced. -/
theorem C2_reduce_triangles_counterexample :
    bigState.active = some bigMesh ∧ bigMesh.type = "MESH" ∧
    ANIMESH_MAX_TRIANGLES < tri_count bigMesh.mesh ∧
    mkRat 1 100 ≤ mkRat 1 2 ∧ mkRat 1 2 ≤ (1 : ℚ) ∧
    findObject (animesh_reduce_triangles_execute bigState (mkRat 1 2)).state "Big"
      = some bigMesh1 ∧
    tri_count bigMesh1.mesh = tri_count bigMesh.mesh ∧
    ¬ ((tri_count bigMesh1.mesh : ℚ) ≤ mkRat 1 2 * (tri_count bigMesh.mesh : ℚ)) := by
  refine ⟨rfl, rfl, ?_, by decide, by decide, rfl, rfl, ?_⟩
  · rw [tri_count_bigMesh]
    decide
  · have h1 : tri_count bigMesh1.mesh = 32769 := tri_count_bigMesh
    rw [h1, tri_count_bigMesh, Rat.mkRat_eq_div]
    norm_num

theorem findMaterial_append_new (s : BState) (m : Material)
    (h : findMaterial s m.name = none) :
    findMaterial { s with materials := s.materials ++ [m] } m.name = some m := by
  unfold findMaterial at *
  simp [List.find?_append, h]

/-- C3 (amended): on an active UV-mapped mesh, bom_setup_material returns
FINISHED; a material named obj.name_BoM then exists, newly created with
use_nodes enabled when none existed, and reused with its use_nodes flag
unchanged otherwise; its node tree holds exactly a Principled BSDF and a
Material Output node with the BSDF output linked to the Surface input,
Specular 0 and Roughness 1; and the material occupies slot 0 of the mesh,
replacing the previous slot-0 entry when one existed and becoming the only
slot otherwise. -/
theorem C3_setup_material (s : BState) (obj : Object)
    (hact : s.active = some obj) (hmesh : obj.type = "MESH")
    (huv : obj.mesh.uv_layers ≠ []) :
    (bom_setup_material_execute s).result = .FINISHED ∧
    ∃ mat, findMaterial (bom_setup_material_execute s).state (obj.name ++ "_BoM")
        = some mat ∧
      mat.name = obj.name ++ "_BoM" ∧
      (findMaterial s (obj.name ++ "_BoM") = none → mat.use_nodes = true) ∧
      (∀ m0, findMaterial s (obj.name ++ "_BoM") = some m0 →
        mat.use_nodes = m0.use_nodes) ∧
      mat.node_tree.nodes.map (fun n => n.type)
        = ["ShaderNodeBsdfPrincipled", "ShaderNodeOutputMaterial"] ∧
      mat.node_tree.nodes.map (fun n => n.name)
        = ["Principled BSDF", "Material Output"] ∧
      mat.node_tree.links = [⟨0, "BSDF", 1, "Surface"⟩] ∧
      (∃ bsdf, mat.node_tree.nodes.head? = some bsdf ∧
        bsdf.getInput "Specular" = some 0 ∧ bsdf.getInput "Roughness" = some 1) ∧
      ∃ obj1, findObject (bom_setup_material_execute s).state obj.name = some obj1 ∧
        obj1.mesh.material_slots.head? = some (obj.name ++ "_BoM") ∧
        obj1.mesh.material_slots.tail = obj.mesh.material_slots.tail := by
  have hobjfind : findObject s obj.name = some obj := active_findObject hact
  have huvb : obj.mesh.uv_layers.isEmpty = false := by
    cases h : obj.mesh.uv_layers with
    | nil => exact absurd h huv
    | cons a t => rfl
  unfold bom_setup_material_execute
  rw [hact]
  simp only [hmesh, bne_self_eq_false, Bool.false_eq_true, if_false, huvb]
  cases hfm : findMaterial s (obj.name ++ "_BoM") with
  | some m0 =>
    have hm0name : m0.name = obj.name ++ "_BoM" := findMaterial_name hfm
    dsimp only
    refine ⟨trivial, { m0 with node_tree :=
      ⟨[((⟨"ShaderNodeBsdfPrincipled", "Principled BSDF", "", (0, 0), none, []⟩ :
            ShaderNode).setInput "Specular" 0).setInput "Roughness" 1,
        ⟨"ShaderNodeOutputMaterial", "Material Output", "", (300, 0), none, []⟩],
       [⟨0, "BSDF", 1, "Surface"⟩]⟩ }, ?_, hm0name, ?_, ?_, rfl, rfl, rfl,
      ⟨_, rfl, rfl, rfl⟩, ?_⟩
    · rw [findMaterial_updateObject]
      exact findMaterial_update (by rw [hfm]; rfl) hm0name
    · intro hnone; simp at hnone
    · intro m1 hm1
      injection hm1 with h
      rw [h]
    · refine ⟨{ obj with data := .mesh { obj.mesh with material_slots :=
        if !obj.mesh.material_slots.isEmpty then
          (obj.name ++ "_BoM") :: obj.mesh.material_slots.tail
        else [obj.name ++ "_BoM"] } }, ?_, ?_, ?_⟩
      · exact findObject_update (by rw [show findObject (updateMaterial s _) obj.name
            = findObject s obj.name from rfl, hobjfind]; rfl) rfl
      · cases hms : obj.mesh.material_slots with
        | nil => rfl
        | cons a t => rfl
      · cases hms : obj.mesh.material_slots with
        | nil => rfl
        | cons a t => rfl
  | none =>
    dsimp only
    refine ⟨trivial, { name := obj.name ++ "_BoM", use_nodes := true, node_tree :=
      ⟨[((⟨"ShaderNodeBsdfPrincipled", "Principled BSDF", "", (0, 0), none, []⟩ :
            ShaderNode).setInput "Specular" 0).setInput "Roughness" 1,
        ⟨"ShaderNodeOutputMaterial", "Material Output", "", (300, 0), none, []⟩],
       [⟨0, "BSDF", 1, "Surface"⟩]⟩ }, ?_, rfl, ?_, ?_, rfl, rfl, rfl,
      ⟨_, rfl, rfl, rfl⟩, ?_⟩
    · rw [findMaterial_updateObject]
      refine findMaterial_update ?_ rfl
      rw [show findMaterial {s with materials := s.materials ++
          [{ name := obj.name ++ "_BoM", use_nodes := true, node_tree := (⟨[], []⟩ : NodeTree)}]}
          (obj.name ++ "_BoM")
        = some { name := obj.name ++ "_BoM", use_nodes := true,
                 node_tree := (⟨[], []⟩ : NodeTree) } from
        findMaterial_append_new s _ hfm]
      rfl
    · intro _; rfl
    · intro m1 hm1; simp at hm1
    · refine ⟨{ obj with data := .mesh { obj.mesh with material_slots :=
        if !obj.mesh.material_slots.isEmpty then
          (obj.name ++ "_BoM") :: obj.mesh.material_slots.tail
        else [obj.name ++ "_BoM"] } }, ?_, ?_, ?_⟩
      · refine findObject_update ?_ rfl
        rw [show findObject (updateMaterial {s with materials := s.materials ++
            [{ name := obj.name ++ "_BoM", use_nodes := true,
               node_tree := (⟨[], []⟩ : NodeTree)}]} _) obj.name
          = findObject s obj.name from rfl, hobjfind]
        rfl
      · cases hms : obj.mesh.material_slots with
        | nil => rfl
        | cons a t => rfl
      · cases hms : obj.mesh.material_slots with
        | nil => rfl
        | cons a t => rfl

/-- Witness for the amended C3 at a concrete scene without a pre-existing
material. -/
theorem C3_setup_material_witness :
    wState.active = some wCube ∧ wCube.type = "MESH" ∧
    wCube.mesh.uv_layers ≠ [] ∧
    ((bom_setup_material_execute wState).result = .FINISHED ∧
     ∃ mat, findMaterial (bom_setup_material_execute wState).state (wCube.name ++ "_BoM")
         = some mat ∧
       mat.name = wCube.name ++ "_BoM" ∧
       (findMaterial wState (wCube.name ++ "_BoM") = none → mat.use_nodes = true) ∧
       (∀ m0, findMaterial wState (wCube.name ++ "_BoM") = some m0 →
         mat.use_nodes = m0.use_nodes) ∧
       mat.node_tree.nodes.map (fun n => n.type)
         = ["ShaderNodeBsdfPrincipled", "ShaderNodeOutputMaterial"] ∧
       mat.node_tree.nodes.map (fun n => n.name)
         = ["Principled BSDF", "Material Output"] ∧
       mat.node_tree.links = [⟨0, "BSDF", 1, "Surface"⟩] ∧
       (∃ bsdf, mat.node_tree.nodes.head? = some bsdf ∧
         bsdf.getInput "Specular" = some 0 ∧ bsdf.getInput "Roughness" = some 1) ∧
       ∃ obj1, findObject (bom_setup_material_execute wState).state wCube.name = some obj1 ∧
         obj1.mesh.material_slots.head? = some (wCube.name ++ "_BoM") ∧
         obj1.mesh.material_slots.tail = wCube.mesh.material_slots.tail) :=
  ⟨rfl, rfl, by decide, C3_setup_material wState wCube rfl rfl (by decide)⟩

/-- A pre-existing material carrying the BoM name with use_nodes disabled. -/
def preBoM : Material := { name := "Cube_BoM", use_nodes := false, node_tree := ⟨[], []⟩ }

/-- Scene whose active mesh already owns a material named Cube_BoM. -/
def preBoMState : BState :=
  { objects := [wCube, wArm], materials := [preBoM], images := [],
    active_object := some "Cube" }

/-- C3 counterexample: when a material named after the mesh already exists
with use_nodes disabled, the operator reuses it, returns FINISHED, and the
material still has use_nodes disabled, contradicting the claim that the
material has use_nodes enabled after every successful run. -/
theorem C3_setup_material_counterexample :
    preBoMState.active = some wCube ∧ wCube.type = "MESH" ∧
    wCube.mesh.uv_layers ≠ [] ∧
    (bom_setup_material_execute preBoMState).result = .FINISHED ∧
    (findMaterial (bom_setup_material_execute preBoMState).state "Cube_BoM").map
      Material.use_nodes = some false :=
  ⟨rfl, rfl, by decide, rfl, rfl⟩

/-- C4: a mesh-cache hit returns the stored entry with the state unchanged,
whatever the object's current vertex or polygon counts are;
get_cached_mesh_data never removes an entry; and clear_performance_caches
empties both caches. -/
theorem C4_mesh_cache (s : BState) (obj : Object) (e : MeshCacheEntry)
    (h : s.mesh_cache.lookup obj.name = some e) :
    get_cached_mesh_data s obj = (e, s) ∧
    (∀ (s2 : BState) (o2 : Object) (k : String) (v : MeshCacheEntry),
      s2.mesh_cache.lookup k = some v →
      (get_cached_mesh_data s2 o2).2.mesh_cache.lookup k = some v) ∧
    (clear_performance_caches s).mesh_cache = [] ∧
    (clear_performance_caches s).bone_cache = [] := by
  refine ⟨?_, ?_, rfl, rfl⟩
  · unfold get_cached_mesh_data
    rw [h]
  · intro s2 o2 k v hv
    unfold get_cached_mesh_data
    cases h2 : s2.mesh_cache.lookup o2.name with
    | some e2 => exact hv
    | none =>
      dsimp only
      have hk : (k == o2.name) = false := by
        by_cases hkeq : k = o2.name
        · rw [hkeq] at hv; rw [hv] at h2; cases h2
        · simp [hkeq]
      simp only [List.lookup, hk]
      exact hv

/-- Scene with a pre-populated mesh-cache entry for the sample mesh. -/
def cachedState : BState := { wState with mesh_cache := [("Cube", ⟨2, 2, 0⟩)] }

/-- Witness for C4 at a concrete scene. -/
theorem C4_mesh_cache_witness :
    cachedState.mesh_cache.lookup wCube.name = some ⟨2, 2, 0⟩ ∧
    (get_cached_mesh_data cachedState wCube = (⟨2, 2, 0⟩, cachedState) ∧
     (∀ (s2 : BState) (o2 : Object) (k : String) (v : MeshCacheEntry),
       s2.mesh_cache.lookup k = some v →
       (get_cached_mesh_data s2 o2).2.mesh_cache.lookup k = some v) ∧
     (clear_performance_caches cachedState).mesh_cache = [] ∧
     (clear_performance_caches cachedState).bone_cache = []) :=
  ⟨rfl, C4_mesh_cache cachedState wCube ⟨2, 2, 0⟩ rfl⟩

/-- C5 (amended): performance_profile returns FINISHED for every active
object and CANCELLED exactly when there is no active object; its single
INFO report carries the mesh statistics (vertex, polygon, modifier and
weight-group counts, the former two from the cached entry) when the
object is a mesh, followed by the armature statistics (total and deform
bone counts) when the mesh has an armature modifier with a target; it
logs a warning if and only if the active object is a mesh and a
threshold is exceeded, where the vertex-count threshold is evaluated on
the cached entry for the object's name (the live counts only on a cache
miss): cached vertex count > 50000, modifier count > 5, vertex-group
count > 100, or more than 110 deform bones on an armature-modifier
target. -/
theorem C5_performance_profile (s : BState) (obj : Object)
    (hact : s.active = some obj) :
    (performance_profile_execute s).result = .FINISHED ∧
    (∀ s2 : BState, s2.active = none →
      (performance_profile_execute s2).result = .CANCELLED) ∧
    (performance_profile_execute s).reports
      = [("INFO", String.intercalate "\n"
          ((if obj.type = "MESH" then
              ["Vertices: " ++ toString (get_cached_mesh_data s obj).1.vertex_count,
               "Polygons: " ++ toString (get_cached_mesh_data s obj).1.polygon_count,
               "Modifiers: " ++ toString obj.modifiers.length,
               "Weight Groups: " ++ toString obj.vertex_groups.length]
            else []) ++
           (match (if obj.type = "MESH" then find_armature s obj else none) with
            | some arm =>
              ["Total Bones: " ++ toString arm.dataBones.length,
               "Deform Bones: " ++ toString (deformBoneCount arm)]
            | none => [])))] ∧
    ((performance_profile_execute s).log_warnings ≠ [] ↔
      (obj.type = "MESH" ∧
        ((get_cached_mesh_data s obj).1.vertex_count > 50000 ∨
         obj.modifiers.length > 5 ∨
         obj.vertex_groups.length > 100 ∨
         (∃ arm, find_armature s obj = some arm ∧ deformBoneCount arm > 110)))) := by
  refine ⟨?_, ?_, ?_, ?_⟩
  · unfold performance_profile_execute
    rw [hact]
  · intro s2 h2
    unfold performance_profile_execute
    rw [h2]
  · unfold performance_profile_execute
    rw [hact]
    by_cases hm : obj.type = "MESH"
    · simp only [hm, beq_self_eq_true, if_true]
      cases harm : find_armature s obj with
      | none => simp [hm, harm]
      | some arm => simp [hm, harm]
    · have hmb : (obj.type == "MESH") = false := by simp [hm]
      simp [hmb, hm]
  · unfold performance_profile_execute
    rw [hact]
    by_cases hm : obj.type = "MESH"
    · simp only [hm, beq_self_eq_true, if_true]
      cases harm : find_armature s obj with
      | none =>
        by_cases h1 : (get_cached_mesh_data s obj).1.vertex_count > 50000 <;>
          by_cases h2 : obj.modifiers.length > 5 <;>
            by_cases h3 : obj.vertex_groups.length > 100 <;>
              simp [h1, h2, h3, hm]
      | some arm =>
        by_cases h1 : (get_cached_mesh_data s obj).1.vertex_count > 50000 <;>
          by_cases h2 : obj.modifiers.length > 5 <;>
            by_cases h3 : obj.vertex_groups.length > 100 <;>
              by_cases h4 : deformBoneCount arm > 110 <;>
                simp [h1, h2, h3, h4, hm]
    · have hmb : (obj.type == "MESH") = false := by simp [hm]
      simp [hmb, hm]

/-- Witness for the amended C5 at a concrete scene. -/
theorem C5_performance_profile_witness :
    wState.active = some wCube ∧
    ((performance_profile_execute wState).result = .FINISHED ∧
     (∀ s2 : BState, s2.active = none →
       (performance_profile_execute s2).result = .CANCELLED) ∧
     (performance_profile_execute wState).reports
       = [("INFO", String.intercalate "\n"
           ((if wCube.type = "MESH" then
               ["Vertices: "
                  ++ toString (get_cached_mesh_data wState wCube).1.vertex_count,
                "Polygons: "
                  ++ toString (get_cached_mesh_data wState wCube).1.polygon_count,
                "Modifiers: " ++ toString wCube.modifiers.length,
                "Weight Groups: " ++ toString wCube.vertex_groups.length]
             else []) ++
            (match (if wCube.type = "MESH" then find_armature wState wCube
                    else none) with
             | some arm =>
               ["Total Bones: " ++ toString arm.dataBones.length,
                "Deform Bones: " ++ toString (deformBoneCount arm)]
             | none => [])))] ∧
     ((performance_profile_execute wState).log_warnings ≠ [] ↔
       (wCube.type = "MESH" ∧
         ((get_cached_mesh_data wState wCube).1.vertex_count > 50000 ∨
          wCube.modifiers.length > 5 ∨
          wCube.vertex_groups.length > 100 ∨
          (∃ arm, find_armature wState wCube = some arm ∧
            deformBoneCount arm > 110))))) :=
  ⟨rfl, C5_performance_profile wState wCube rfl⟩

/-- A mesh object with one vertex and no modifiers or vertex groups. -/
def staleCube : Object :=
  { name := "Stale",
    data := .mesh { vertices := [⟨[]⟩], polygons := [], uv_layers := [],
                    material_slots := [] },
    modifiers := [], vertex_groups := [] }

/-- Scene whose mesh cache holds a stale entry claiming 60000 vertices for
the one-vertex mesh. -/
def staleState : BState :=
  { objects := [staleCube], materials := [], images := [],
    active_object := some "Stale", mesh_cache := [("Stale", ⟨60000, 0, 0⟩)] }

/-- C5 counterexample: with a stale cache entry, performance_profile logs a
high-vertex-count warning although no threshold of the live object is
exceeded (1 vertex, 0 modifiers, 0 vertex groups, no armature), so the
claimed warns-iff-threshold-exceeded equivalence fails as stated. -/
theorem C5_performance_profile_counterexample :
    staleState.active = some staleCube ∧ staleCube.type = "MESH" ∧
    staleCube.mesh.vertices.length ≤ 50000 ∧
    staleCube.modifiers.length ≤ 5 ∧
    staleCube.vertex_groups.length ≤ 100 ∧
    find_armature staleState staleCube = none ∧
    (performance_profile_execute staleState).log_warnings ≠ [] := by
  refine ⟨rfl, rfl, by decide, by decide, by decide, rfl, ?_⟩
  decide

/-- C10: each mesh-requiring operator returns CANCELLED and leaves the
whole state unchanged when there is no active object or the active object
is not a mesh; animesh_validate and animesh_optimize_bones additionally
cancel without touching the state when the active mesh has no armature
modifier with a target. -/
theorem C10_guards (s : BState) :
    ((s.active = none ∨ ∃ obj, s.active = some obj ∧ obj.type ≠ "MESH") →
      ((animesh_validate_execute s).result = .CANCELLED ∧
        (animesh_validate_execute s).state = s) ∧
      (∀ ru, (animesh_optimize_bones_execute s ru).result = .CANCELLED ∧
        (animesh_optimize_bones_execute s ru).state = s) ∧
      (∀ r, (animesh_reduce_triangles_execute s r).result = .CANCELLED ∧
        (animesh_reduce_triangles_execute s r).state = s) ∧
      ((bom_setup_material_execute s).result = .CANCELLED ∧
        (bom_setup_material_execute s).state = s) ∧
      (∀ lt, (bom_add_layer_slot_execute s lt).result = .CANCELLED ∧
        (bom_add_layer_slot_execute s lt).state = s) ∧
      ((bom_export_preview_execute s).result = .CANCELLED ∧
        (bom_export_preview_execute s).state = s) ∧
      (∀ a b c, (performance_optimize_scene_execute s a b c).result = .CANCELLED ∧
        (performance_optimize_scene_execute s a b c).state = s)) ∧
    (∀ obj, s.active = some obj → obj.type = "MESH" → find_armature s obj = none →
      ((animesh_validate_execute s).result = .CANCELLED ∧
        (animesh_validate_execute s).state = s) ∧
      (∀ ru, (animesh_optimize_bones_execute s ru).result = .CANCELLED ∧
        (animesh_optimize_bones_execute s ru).state = s)) := by
  constructor
  · intro h
    rcases h with hnone | ⟨obj, hobj, hneq⟩
    · refine ⟨?_, fun ru => ?_, fun r => ?_, ?_, fun lt => ?_, ?_, fun a b c => ?_⟩
      · unfold animesh_validate_execute; rw [hnone]; exact ⟨rfl, rfl⟩
      · unfold animesh_optimize_bones_execute; rw [hnone]; exact ⟨rfl, rfl⟩
      · unfold animesh_reduce_triangles_execute; rw [hnone]; exact ⟨rfl, rfl⟩
      · unfold bom_setup_material_execute; rw [hnone]; exact ⟨rfl, rfl⟩
      · unfold bom_add_layer_slot_execute; rw [hnone]; exact ⟨rfl, rfl⟩
      · unfold bom_export_preview_execute; rw [hnone]; exact ⟨rfl, rfl⟩
      · unfold performance_optimize_scene_execute; rw [hnone]; exact ⟨rfl, rfl⟩
    · have hb : (obj.type != "MESH") = true := by
        simp only [bne_iff_ne, ne_eq]
        exact hneq
      refine ⟨?_, fun ru => ?_, fun r => ?_, ?_, fun lt => ?_, ?_, fun a b c => ?_⟩
      · unfold animesh_validate_execute; rw [hobj]; simp only [hb, if_true]
        exact ⟨trivial, trivial⟩
      · unfold animesh_optimize_bones_execute; rw [hobj]; simp only [hb, if_true]
        exact ⟨trivial, trivial⟩
      · unfold animesh_reduce_triangles_execute; rw [hobj]; simp only [hb, if_true]
        exact ⟨trivial, trivial⟩
      · unfold bom_setup_material_execute; rw [hobj]; simp only [hb, if_true]
        exact ⟨trivial, trivial⟩
      · unfold bom_add_layer_slot_execute; rw [hobj]; simp only [hb, if_true]
        exact ⟨trivial, trivial⟩
      · unfold bom_export_preview_execute; rw [hobj]; simp only [hb, if_true]
        exact ⟨trivial, trivial⟩
      · unfold performance_optimize_scene_execute; rw [hobj]; simp only [hb, if_true]
        exact ⟨trivial, trivial⟩
  · intro obj hobj hm harm
    refine ⟨?_, fun ru => ?_⟩
    · unfold animesh_validate_execute
      rw [hobj]
      simp only [hm, bne_self_eq_false, Bool.false_eq_true, if_false, harm]
      exact ⟨trivial, trivial⟩
    · unfold animesh_optimize_bones_execute
      rw [hobj]
      simp only [hm, bne_self_eq_false, Bool.false_eq_true, if_false, harm]
      exact ⟨trivial, trivial⟩

/-- Scene without an active object. -/
def emptyState : BState :=
  { objects := [], materials := [], images := [], active_object := none }

/-- Witness for C10: a scene without an active object, and a scene whose
active mesh has no armature modifier. -/
theorem C10_guards_witness :
    ((animesh_validate_execute emptyState).result = .CANCELLED ∧
      (animesh_validate_execute emptyState).state = emptyState) ∧
    ((animesh_optimize_bones_execute staleState true).result = .CANCELLED ∧
      (animesh_optimize_bones_execute staleState true).state = staleState) :=
  ⟨((C10_guards emptyState).1 (Or.inl rfl)).1,
   ((C10_guards staleState).2 staleCube rfl rfl rfl).2 true⟩

theorem findMaterial_set_images (s : BState) (imgs : List Image) (nm : String) :
    findMaterial { s with images := imgs } nm = findMaterial s nm := rfl

theorem updateMaterial_images (s : BState) (m : Material) :
    (updateMaterial s m).images = s.images := rfl

theorem activeMaterial_find {s : BState} {obj : Object} {mat : Material}
    (h : activeMaterial s obj = some mat) : findMaterial s mat.name = some mat := by
  unfold activeMaterial at h
  obtain ⟨nm, h1, h2⟩ := Option.bind_eq_some.mp h
  rw [findMaterial_name h2]
  exact h2

/-- C8: bom_add_layer_slot cancels exactly when there is no active mesh, no
active material, or no node named Principled BSDF in the material's tree;
a cancelled run changes nothing except possibly enabling use_nodes on the
active material; a finished run appends a texture node named
BoM_layer_type whose Color output is linked to the BSDF's Base Color and
whose image is named objname_layer_BoM, creating that image as a new
1024x1024 generated image only when absent. -/
theorem C8_add_layer_slot (s : BState) (lt : String)
    (hlt : lt = "SKIN" ∨ lt = "TATTOO" ∨ lt = "CLOTHING" ∨ lt = "EYEBROW"
      ∨ lt = "HAIR") :
    ((bom_add_layer_slot_execute s lt).result = .CANCELLED ↔
      (s.active = none ∨
       (∃ obj, s.active = some obj ∧ obj.type ≠ "MESH") ∨
       (∃ obj, s.active = some obj ∧ obj.type = "MESH" ∧
         activeMaterial s obj = none) ∨
       (∃ obj mat, s.active = some obj ∧ obj.type = "MESH" ∧
         activeMaterial s obj = some mat ∧
         mat.node_tree.getNodeIdx "Principled BSDF" = none))) ∧
    ((bom_add_layer_slot_execute s lt).result = .CANCELLED →
      ((bom_add_layer_slot_execute s lt).state = s ∨
       ∃ obj mat, s.active = some obj ∧ activeMaterial s obj = some mat ∧
         mat.use_nodes = false ∧
         (bom_add_layer_slot_execute s lt).state
           = updateMaterial s { mat with use_nodes := true })) ∧
    ((bom_add_layer_slot_execute s lt).result = .FINISHED →
      ∃ obj mat bsdfIdx, s.active = some obj ∧ obj.type = "MESH" ∧
        activeMaterial s obj = some mat ∧
        mat.node_tree.getNodeIdx "Principled BSDF" = some bsdfIdx ∧
        ∃ mat2, findMaterial (bom_add_layer_slot_execute s lt).state mat.name
            = some mat2 ∧
          ∃ tex, mat2.node_tree.nodes = mat.node_tree.nodes ++ [tex] ∧
            tex.type = "ShaderNodeTexImage" ∧ tex.name = "BoM_" ++ lt ∧
            tex.image = some (obj.name ++ "_" ++ lt ++ "_BoM") ∧
            mat2.node_tree.links = mat.node_tree.links ++
              [⟨mat.node_tree.nodes.length, "Color", bsdfIdx, "Base Color"⟩] ∧
            ((s.images.find? (fun i => i.name == obj.name ++ "_" ++ lt ++ "_BoM")).isSome
               = true →
              (bom_add_layer_slot_execute s lt).state.images = s.images) ∧
            (s.images.find? (fun i => i.name == obj.name ++ "_" ++ lt ++ "_BoM") = none →
              (bom_add_layer_slot_execute s lt).state.images = s.images ++
                [⟨obj.name ++ "_" ++ lt ++ "_BoM", 1024, 1024, true, "GENERATED"⟩])) := by
  unfold bom_add_layer_slot_execute
  cases hact : s.active with
  | none =>
    exact ⟨iff_of_true (by trivial) (Or.inl rfl), fun _ => Or.inl (by trivial),
      fun h => OpResult.noConfusion h⟩
  | some obj =>
    by_cases hm : obj.type = "MESH"
    case neg =>
      have hb : (obj.type != "MESH") = true := by
        simp only [bne_iff_ne, ne_eq]
        exact hm
      simp only [hb, if_true]
      exact ⟨iff_of_true (by trivial) (Or.inr (Or.inl ⟨obj, rfl, hm⟩)),
        fun _ => Or.inl (by trivial), fun h => OpResult.noConfusion h⟩
    case pos =>
    simp only [hm, bne_self_eq_false, Bool.false_eq_true, if_false]
    cases ham : activeMaterial s obj with
    | none =>
      exact ⟨iff_of_true (by trivial) (Or.inr (Or.inr (Or.inl ⟨obj, rfl, hm, ham⟩))),
        fun _ => Or.inl (by trivial), fun h => OpResult.noConfusion h⟩
    | some mat =>
      have hmatfind : findMaterial s mat.name = some mat := activeMaterial_find ham
      by_cases hun : mat.use_nodes = true
      case pos =>
        have hb2 : (!mat.use_nodes) = false := by rw [hun]; rfl
        simp only [hb2, Bool.false_eq_true, if_false]
        cases hget : mat.node_tree.getNodeIdx "Principled BSDF" with
        | none =>
          exact ⟨iff_of_true (by trivial)
              (Or.inr (Or.inr (Or.inr ⟨obj, mat, rfl, hm, ham, hget⟩))),
            fun _ => Or.inl (by trivial), fun h => OpResult.noConfusion h⟩
        | some bsdfIdx =>
          refine ⟨iff_of_false (fun h => OpResult.noConfusion h) ?_,
            fun h => absurd h (fun h2 => OpResult.noConfusion h2), fun _ => ?_⟩
          · rintro (h | ⟨o, ho, hn⟩ | ⟨o, ho, -, hno⟩ | ⟨o, mt, ho, -, hmt, hg⟩)
            · cases h
            · injection ho with ho
              exact hn (ho ▸ hm)
            · injection ho with ho
              rw [← ho, ham] at hno; cases hno
            · injection ho with ho
              rw [← ho, ham] at hmt
              injection hmt with hmt
              rw [← hmt, hget] at hg; cases hg
          · refine ⟨obj, mat, bsdfIdx, rfl, hm, ham, hget, ?_⟩
            cases hi : (s.images.find?
                (fun i => i.name == obj.name ++ "_" ++ lt ++ "_BoM")).isNone with
            | true =>
              simp only [hi, if_true]
              refine ⟨_, findMaterial_update
                  (by rw [findMaterial_set_images, hmatfind]; rfl) rfl,
                _, rfl, rfl, rfl, rfl, rfl, ?_, fun _ => rfl⟩
              intro hsome
              rw [Option.isNone_iff_eq_none] at hi
              rw [hi] at hsome
              cases hsome
            | false =>
              simp only [hi, Bool.false_eq_true, if_false]
              refine ⟨_, findMaterial_update (by rw [hmatfind]; rfl) rfl,
                _, rfl, rfl, rfl, rfl, rfl, fun _ => rfl, ?_⟩
              intro hnone
              rw [hnone] at hi
              cases hi
      case neg =>
        have hunf : mat.use_nodes = false := by
          revert hun
          cases mat.use_nodes <;> simp
        have hb2 : (!mat.use_nodes) = true := by rw [hunf]; rfl
        simp only [hb2, if_true]
        have hm1find : findMaterial (updateMaterial s { mat with use_nodes := true })
            mat.name = some { mat with use_nodes := true } :=
          findMaterial_update (by rw [hmatfind]; rfl) rfl
        cases hget : mat.node_tree.getNodeIdx "Principled BSDF" with
        | none =>
          refine ⟨iff_of_true (by trivial)
              (Or.inr (Or.inr (Or.inr ⟨obj, mat, rfl, hm, ham, hget⟩))),
            fun _ => Or.inr ⟨obj, mat, rfl, ham, hunf, rfl⟩,
            fun h => OpResult.noConfusion h⟩
        | some bsdfIdx =>
          refine ⟨iff_of_false (fun h => OpResult.noConfusion h) ?_,
            fun h => absurd h (fun h2 => OpResult.noConfusion h2), fun _ => ?_⟩
          · rintro (h | ⟨o, ho, hn⟩ | ⟨o, ho, -, hno⟩ | ⟨o, mt, ho, -, hmt, hg⟩)
            · cases h
            · injection ho with ho
              exact hn (ho ▸ hm)
            · injection ho with ho
              rw [← ho, ham] at hno; cases hno
            · injection ho with ho
              rw [← ho, ham] at hmt
              injection hmt with hmt
              rw [← hmt, hget] at hg; cases hg
          · refine ⟨obj, mat, bsdfIdx, rfl, hm, ham, hget, ?_⟩
            cases hi : ((updateMaterial s { mat with use_nodes := true }).images.find?
                (fun i => i.name == obj.name ++ "_" ++ lt ++ "_BoM")).isNone with
            | true =>
              simp only [hi, if_true]
              refine ⟨_, findMaterial_update
                  (by rw [findMaterial_set_images, hm1find]; rfl) rfl,
                _, rfl, rfl, rfl, rfl, rfl, ?_, fun _ => rfl⟩
              intro hsome
              rw [Option.isNone_iff_eq_none] at hi
              rw [updateMaterial_images] at hi
              rw [hi] at hsome
              cases hsome
            | false =>
              simp only [hi, Bool.false_eq_true, if_false]
              refine ⟨_, findMaterial_update (by rw [hm1find]; rfl) rfl,
                _, rfl, rfl, rfl, rfl, rfl, fun _ => rfl, ?_⟩
              intro hnone
              rw [updateMaterial_images] at hi
              rw [hnone] at hi
              cases hi

/-- Witness for C8 at a concrete scene and layer type. -/
theorem C8_add_layer_slot_witness :
    ("SKIN" = "SKIN" ∨ "SKIN" = "TATTOO" ∨ "SKIN" = "CLOTHING" ∨ "SKIN" = "EYEBROW"
      ∨ "SKIN" = "HAIR") ∧
    ((bom_add_layer_slot_execute emptyState "SKIN").result = .CANCELLED ↔
      (emptyState.active = none ∨
       (∃ obj, emptyState.active = some obj ∧ obj.type ≠ "MESH") ∨
       (∃ obj, emptyState.active = some obj ∧ obj.type = "MESH" ∧
         activeMaterial emptyState obj = none) ∨
       (∃ obj mat, emptyState.active = some obj ∧ obj.type = "MESH" ∧
         activeMaterial emptyState obj = some mat ∧
         mat.node_tree.getNodeIdx "Principled BSDF" = none))) :=
  ⟨Or.inl rfl, (C8_add_layer_slot emptyState "SKIN" (Or.inl rfl)).1⟩

-- Lemmas about the unused-group removal loop (performance.py, optimize
-- scene, remove_unused_groups branch).

/-- Total number of group assignments across a vertex list. -/
def assignTotal (vs : List Vertex) : Nat :=
  (vs.map (fun v => v.groups.length)).sum

theorem mem_usedGroupIdxs {vs : List Vertex} {j : Nat} :
    j ∈ usedGroupIdxs vs ↔ ∃ v ∈ vs, ∃ g ∈ v.groups, g.group = j := by
  simp [usedGroupIdxs, List.mem_flatMap, List.mem_map]

theorem removeUnusedLoop_weights (used : List Nat) (P : ℚ → Prop) :
    ∀ (c : Nat) (gs : List String) (vs : List Vertex) (r : Nat),
    (∀ v ∈ vs, ∀ g ∈ v.groups, P g.weight) →
    ∀ v ∈ (removeUnusedLoop used c gs vs r).2.1, ∀ g ∈ v.groups, P g.weight := by
  intro c
  induction c with
  | zero => intro gs vs r h; exact h
  | succ i ih =>
    intro gs vs r h
    simp only [removeUnusedLoop]
    split
    · exact ih gs vs r h
    · apply ih
      intro v hv g hg
      simp only [removeGroupAt, List.mem_map] at hv
      obtain ⟨v0, hv0, rfl⟩ := hv
      simp only [List.mem_map] at hg
      obtain ⟨g0, hg0, rfl⟩ := hg
      have he : (if i < g0.group then { g0 with group := g0.group - 1 } else g0).weight
          = g0.weight := by split <;> rfl
      rw [he]
      exact h v0 hv0 g0 hg0

theorem removeUnusedLoop_assignTotal (used : List Nat) :
    ∀ (c : Nat) (gs : List String) (vs : List Vertex) (r : Nat),
    assignTotal (removeUnusedLoop used c gs vs r).2.1 = assignTotal vs := by
  intro c
  induction c with
  | zero => intro gs vs r; rfl
  | succ i ih =>
    intro gs vs r
    simp only [removeUnusedLoop]
    split
    · exact ih gs vs r
    · rw [ih]
      unfold assignTotal removeGroupAt
      rw [List.map_map]
      congr 1
      apply List.map_congr_left
      intro v _
      simp [List.length_map]

theorem removeUnusedLoop_length (used : List Nat) :
    ∀ (c : Nat) (gs : List String) (vs : List Vertex) (r : Nat), c ≤ gs.length →
    (removeUnusedLoop used c gs vs r).1.length + (removeUnusedLoop used c gs vs r).2.2
      = gs.length + r := by
  intro c
  induction c with
  | zero => intro gs vs r _; rfl
  | succ i ih =>
    intro gs vs r h
    simp only [removeUnusedLoop]
    split
    · exact ih gs vs r (Nat.le_of_succ_le h)
    · have hi : i < gs.length := h
      have hlen : ((removeGroupAt i gs vs).1).length = gs.length - 1 := by
        show (gs.eraseIdx i).length = gs.length - 1
        rw [List.length_eraseIdx]
        simp [hi]
      have := ih (removeGroupAt i gs vs).1 (removeGroupAt i gs vs).2 (r + 1)
        (by rw [hlen]; omega)
      rw [this, hlen]
      omega

/-- Invariant of the descending unused-group removal loop at counter c:
the counter never exceeds the group count, indices at or above the counter
are referenced, indices below it that are in the used set are referenced,
and every assignment is in range with references below the counter
confined to the used set. -/
def RULInv (used : List Nat) (c : Nat) (gs : List String) (vs : List Vertex) : Prop :=
  c ≤ gs.length ∧
  (∀ j, c ≤ j → j < gs.length → ∃ v ∈ vs, ∃ g ∈ v.groups, g.group = j) ∧
  (∀ j, j < c → used.contains j = true → ∃ v ∈ vs, ∃ g ∈ v.groups, g.group = j) ∧
  (∀ v ∈ vs, ∀ g ∈ v.groups, g.group < gs.length ∧
    (g.group < c → used.contains g.group = true))

theorem removeUnusedLoop_referenced (used : List Nat) :
    ∀ (c : Nat) (gs : List String) (vs : List Vertex) (r : Nat),
    RULInv used c gs vs →
    ∀ j, j < (removeUnusedLoop used c gs vs r).1.length →
      ∃ v ∈ (removeUnusedLoop used c gs vs r).2.1,
        ∃ g ∈ v.groups, g.group = j := by
  intro c
  induction c with
  | zero =>
    intro gs vs r hinv j hj
    exact hinv.2.1 j (Nat.zero_le j) hj
  | succ i ih =>
    intro gs vs r hinv
    obtain ⟨hc, hAbove, hUsedRef, hValid⟩ := hinv
    simp only [removeUnusedLoop]
    split
    case isTrue hcont =>
      apply ih
      refine ⟨Nat.le_of_succ_le hc, ?_, ?_, ?_⟩
      · intro j hij hjlen
        rcases Nat.eq_or_lt_of_le hij with rfl | hlt
        · exact hUsedRef i (Nat.lt_succ_self i) hcont
        · exact hAbove j hlt hjlen
      · intro j hji hcj
        exact hUsedRef j (Nat.lt_succ_of_lt hji) hcj
      · intro v hv g hg
        obtain ⟨h1, h2⟩ := hValid v hv g hg
        exact ⟨h1, fun hlt => h2 (Nat.lt_succ_of_lt hlt)⟩
    case isFalse hcont =>
      have hno : used.contains i = false := by
        revert hcont
        cases used.contains i <;> simp
      have hi : i < gs.length := hc
      have hgne : ∀ v ∈ vs, ∀ g ∈ v.groups, g.group ≠ i := by
        intro v hv g hg he
        have := (hValid v hv g hg).2 (by omega)
        rw [he, hno] at this
        cases this
      apply ih
      have hlen : ((removeGroupAt i gs vs).1).length = gs.length - 1 := by
        show (gs.eraseIdx i).length = gs.length - 1
        rw [List.length_eraseIdx]
        simp [hi]
      refine ⟨?_, ?_, ?_, ?_⟩
      · rw [hlen]; omega
      · intro j hij hjlen
        rw [hlen] at hjlen
        obtain ⟨v, hv, g, hg, hgj⟩ := hAbove (j + 1) (by omega) (by omega)
        refine ⟨⟨v.groups.map (fun g => if i < g.group then
            { g with group := g.group - 1 } else g)⟩,
          List.mem_map.mpr ⟨v, hv, rfl⟩, ?_⟩
        refine ⟨_, List.mem_map.mpr ⟨g, hg, rfl⟩, ?_⟩
        rw [if_pos (by omega)]
        simp [hgj]
      · intro j hji hcj
        obtain ⟨v, hv, g, hg, hgj⟩ := hUsedRef j (by omega) hcj
        refine ⟨⟨v.groups.map (fun g => if i < g.group then
            { g with group := g.group - 1 } else g)⟩,
          List.mem_map.mpr ⟨v, hv, rfl⟩, ?_⟩
        refine ⟨_, List.mem_map.mpr ⟨g, hg, rfl⟩, ?_⟩
        rw [if_neg (by omega)]
        exact hgj
      · intro v hv g hg
        simp only [removeGroupAt, List.mem_map] at hv
        obtain ⟨v0, hv0, rfl⟩ := hv
        simp only [List.mem_map] at hg
        obtain ⟨g0, hg0, rfl⟩ := hg
        obtain ⟨hr1, hr2⟩ := hValid v0 hv0 g0 hg0
        have hne := hgne v0 hv0 g0 hg0
        by_cases hcase : i < g0.group
        · rw [if_pos hcase]
          constructor
          · show g0.group - 1 < (removeGroupAt i gs vs).1.length
            rw [hlen]; omega
          · intro hlt
            have hlt2 : g0.group - 1 < i := hlt
            omega
        · rw [if_neg hcase]
          have hgi : g0.group < i := by omega
          constructor
          · show g0.group < (removeGroupAt i gs vs).1.length
            rw [hlen]; omega
          · intro _
            exact hr2 (by omega)

theorem sum_map_add_sum_map {α : Type} (l : List α) (f g : α → Nat) :
    (l.map f).sum + (l.map g).sum = (l.map (fun x => f x + g x)).sum := by
  induction l with
  | nil => rfl
  | cons a t ih => simp only [List.map_cons, List.sum_cons]; omega

theorem cleanWeightsPhase_weights (m : MeshData) :
    ∀ v ∈ (cleanWeightsPhase m).1.vertices, ∀ g ∈ v.groups,
      ¬(g.weight < mkRat 1 1000) := by
  intro v hv g hg
  simp only [cleanWeightsPhase, List.mem_map] at hv
  obtain ⟨v0, hv0, rfl⟩ := hv
  simp only [List.mem_filter] at hg
  simpa using hg.2

theorem cleanWeightsPhase_valid (m : MeshData) (n : Nat)
    (hwf : ∀ v ∈ m.vertices, ∀ g ∈ v.groups, g.group < n) :
    ∀ v ∈ (cleanWeightsPhase m).1.vertices, ∀ g ∈ v.groups, g.group < n := by
  intro v hv g hg
  simp only [cleanWeightsPhase, List.mem_map] at hv
  obtain ⟨v0, hv0, rfl⟩ := hv
  simp only [List.mem_filter] at hg
  exact hwf v0 hv0 g hg.1

theorem cleanWeightsPhase_count (m : MeshData) :
    (cleanWeightsPhase m).2 + assignTotal (cleanWeightsPhase m).1.vertices
      = assignTotal m.vertices := by
  simp only [cleanWeightsPhase, assignTotal, List.map_map]
  rw [sum_map_add_sum_map]
  congr 1
  apply List.map_congr_left
  intro v _
  simp only [Function.comp]
  exact (List.length_eq_length_filter_add
    (fun (g : GroupAssign) => decide (g.weight < mkRat 1 1000))).symm

theorem findObject_clear (s : BState) (nm : String) :
    findObject (clear_performance_caches s) nm = findObject s nm := rfl

/-- C6: optimize_scene with clean_weights and remove_unused_groups (on a
well-formed mesh: all group indices in range) returns FINISHED and yields
an object in which no assignment has weight below 0.001, every remaining
vertex group is referenced by some assignment, the reported cleaned count
equals the number of assignments removed, and the reported removed count
equals the number of vertex groups removed. -/
theorem C6_optimize_scene (s : BState) (obj : Object)
    (hact : s.active = some obj) (hmesh : obj.type = "MESH")
    (hwf : ∀ v ∈ obj.mesh.vertices, ∀ g ∈ v.groups,
      g.group < obj.vertex_groups.length) :
    (performance_optimize_scene_execute s true true false).result = .FINISHED ∧
    ∃ obj1,
      findObject (performance_optimize_scene_execute s true true false).state obj.name
        = some obj1 ∧
      (∀ v ∈ obj1.mesh.vertices, ∀ g ∈ v.groups, ¬(g.weight < mkRat 1 1000)) ∧
      (∀ j, j < obj1.vertex_groups.length →
        ∃ v ∈ obj1.mesh.vertices, ∃ g ∈ v.groups, g.group = j) ∧
      (cleanWeightsPhase obj.mesh).2 + assignTotal obj1.mesh.vertices
        = assignTotal obj.mesh.vertices ∧
      (removeUnusedLoop (usedGroupIdxs (cleanWeightsPhase obj.mesh).1.vertices)
          obj.vertex_groups.length obj.vertex_groups
          (cleanWeightsPhase obj.mesh).1.vertices 0).2.2
        + obj1.vertex_groups.length = obj.vertex_groups.length := by
  have hobjfind : findObject s obj.name = some obj := active_findObject hact
  have hwf2 := cleanWeightsPhase_valid obj.mesh obj.vertex_groups.length hwf
  have hInv : RULInv (usedGroupIdxs (cleanWeightsPhase obj.mesh).1.vertices)
      obj.vertex_groups.length obj.vertex_groups
      (cleanWeightsPhase obj.mesh).1.vertices := by
    refine ⟨Nat.le_refl _, ?_, ?_, ?_⟩
    · intro j h1 h2; omega
    · intro j _ hc
      exact mem_usedGroupIdxs.mp (List.elem_iff.mp hc)
    · intro v hv g hg
      exact ⟨hwf2 v hv g hg, fun _ =>
        List.elem_iff.mpr (mem_usedGroupIdxs.mpr ⟨v, hv, g, hg, rfl⟩)⟩
  unfold performance_optimize_scene_execute
  rw [hact]
  simp only [hmesh, bne_self_eq_false, Bool.false_eq_true, if_false, if_true]
  refine ⟨trivial, _,
    by rw [findObject_clear]; exact findObject_update (by rw [hobjfind]; rfl) rfl,
    ?_, ?_, ?_, ?_⟩
  · exact removeUnusedLoop_weights _ (fun w => ¬(w < mkRat 1 1000)) _ _ _ _
      (cleanWeightsPhase_weights obj.mesh)
  · exact removeUnusedLoop_referenced _ _ _ _ _ hInv
  · show (cleanWeightsPhase obj.mesh).2 + assignTotal
        (removeUnusedLoop (usedGroupIdxs (cleanWeightsPhase obj.mesh).1.vertices)
          obj.vertex_groups.length obj.vertex_groups
          (cleanWeightsPhase obj.mesh).1.vertices 0).2.1
      = assignTotal obj.mesh.vertices
    rw [removeUnusedLoop_assignTotal]
    exact cleanWeightsPhase_count obj.mesh
  · show (removeUnusedLoop (usedGroupIdxs (cleanWeightsPhase obj.mesh).1.vertices)
        obj.vertex_groups.length obj.vertex_groups
        (cleanWeightsPhase obj.mesh).1.vertices 0).2.2
      + (removeUnusedLoop (usedGroupIdxs (cleanWeightsPhase obj.mesh).1.vertices)
        obj.vertex_groups.length obj.vertex_groups
        (cleanWeightsPhase obj.mesh).1.vertices 0).1.length
      = obj.vertex_groups.length
    have := removeUnusedLoop_length
      (usedGroupIdxs (cleanWeightsPhase obj.mesh).1.vertices)
      obj.vertex_groups.length obj.vertex_groups
      (cleanWeightsPhase obj.mesh).1.vertices 0 (Nat.le_refl _)
    omega

/-- Mesh with one sub-threshold weight and one unused vertex group. -/
def wCube6 : Object :=
  { name := "Cube6",
    data := .mesh { vertices := [⟨[⟨0, mkRat 1 2000⟩, ⟨1, 1⟩]⟩, ⟨[⟨1, 1⟩]⟩],
                    polygons := [], uv_layers := [], material_slots := [] },
    modifiers := [], vertex_groups := ["Bone1", "Bone2", "Unused"] }

/-- Scene for the C6 witness. -/
def wState6 : BState :=
  { objects := [wCube6], materials := [], images := [], active_object := some "Cube6" }

/-- Witness for C6 at a concrete scene. -/
theorem C6_optimize_scene_witness :
    wState6.active = some wCube6 ∧ wCube6.type = "MESH" ∧
    (∀ v ∈ wCube6.mesh.vertices, ∀ g ∈ v.groups,
      g.group < wCube6.vertex_groups.length) ∧
    ((performance_optimize_scene_execute wState6 true true false).result = .FINISHED ∧
     ∃ obj1,
       findObject (performance_optimize_scene_execute wState6 true true false).state
         wCube6.name = some obj1 ∧
       (∀ v ∈ obj1.mesh.vertices, ∀ g ∈ v.groups, ¬(g.weight < mkRat 1 1000)) ∧
       (∀ j, j < obj1.vertex_groups.length →
         ∃ v ∈ obj1.mesh.vertices, ∃ g ∈ v.groups, g.group = j) ∧
       (cleanWeightsPhase wCube6.mesh).2 + assignTotal obj1.mesh.vertices
         = assignTotal wCube6.mesh.vertices ∧
       (removeUnusedLoop (usedGroupIdxs (cleanWeightsPhase wCube6.mesh).1.vertices)
           wCube6.vertex_groups.length wCube6.vertex_groups
           (cleanWeightsPhase wCube6.mesh).1.vertices 0).2.2
         + obj1.vertex_groups.length = wCube6.vertex_groups.length) :=
  ⟨rfl, rfl, by decide, C6_optimize_scene wState6 wCube6 rfl rfl (by decide)⟩

/-! ### C9: optimize_weight_calculation is independent of the chunk size -/

theorem groupStep_eq_event (obj : Object) (bn : List String) (idx : Nat)
    (d : List (String × List (Nat × ℚ))) (g : GroupAssign) :
    groupStep obj bn idx d g =
      match assignEvent obj bn idx g with
      | some e => addEvent d e
      | none => d := by
  unfold groupStep assignEvent addEvent
  cases obj.vertex_groups[g.group]? with
  | none => rfl
  | some vg =>
    show (if bn.contains vg = true then addWeight d vg (idx, g.weight) else d)
      = match (if bn.contains vg = true then some (vg, (idx, g.weight))
               else none) with
        | some e => addEvent d e
        | none => d
    cases h : bn.contains vg <;> rfl

theorem foldl_groupStep_eq (obj : Object) (bn : List String) (idx : Nat) :
    ∀ (gs : List GroupAssign) (d : List (String × List (Nat × ℚ))),
      gs.foldl (groupStep obj bn idx) d
        = (gs.filterMap (assignEvent obj bn idx)).foldl addEvent d := by
  intro gs
  induction gs with
  | nil => intro d; rfl
  | cons g gs ih =>
    intro d
    rw [List.foldl_cons, groupStep_eq_event, ih, List.filterMap_cons]
    cases assignEvent obj bn idx g <;> simp

theorem vertexStep_eq_event (obj : Object) (bn : List String)
    (d : List (String × List (Nat × ℚ))) (p : Nat × Vertex) :
    vertexStep obj bn d p
      = (p.2.groups.filterMap (assignEvent obj bn p.1)).foldl addEvent d :=
  foldl_groupStep_eq obj bn p.1 p.2.groups d

theorem foldl_vertexStep_eq (obj : Object) (bn : List String) :
    ∀ (chunk : List (Nat × Vertex)) (d : List (String × List (Nat × ℚ))),
      chunk.foldl (vertexStep obj bn) d
        = (weightEvents obj bn chunk).foldl addEvent d := by
  intro chunk
  induction chunk with
  | nil => intro d; rfl
  | cons p chunk ih =>
    intro d
    simp only [List.foldl_cons, ih, vertexStep_eq_event, weightEvents,
      List.flatMap_cons, List.foldl_append]

theorem processChunk_eq_event (obj : Object) (bn : List String)
    (chunk : List (Nat × Vertex)) :
    processChunk obj bn chunk = (weightEvents obj bn chunk).foldl addEvent [] :=
  foldl_vertexStep_eq obj bn chunk []

theorem updAt_fst (nm : String) (ys : List (Nat × ℚ))
    (p : String × List (Nat × ℚ)) : (updAt nm ys p).1 = p.1 := by
  unfold updAt; split <;> rfl

theorem any_key_map (d : List (String × List (Nat × ℚ))) (nm : String)
    (ys : List (Nat × ℚ)) (x : String) :
    (d.map (updAt nm ys)).any (fun q => q.1 == x)
      = d.any (fun q => q.1 == x) := by
  induction d with
  | nil => rfl
  | cons p d ih => simp only [List.map_cons, List.any_cons, updAt_fst, ih]

theorem map_updAt_of_not_key (d : List (String × List (Nat × ℚ)))
    (nm : String) (ys : List (Nat × ℚ))
    (h : d.any (fun p => p.1 == nm) = false) :
    d.map (updAt nm ys) = d := by
  induction d with
  | nil => rfl
  | cons p d ih =>
    simp only [List.any_cons, Bool.or_eq_false_iff] at h
    simp [updAt, h.1, ih h.2]

theorem mergeStep_singleton (d : List (String × List (Nat × ℚ)))
    (nm : String) (w : Nat × ℚ) :
    mergeStep d (nm, [w]) = addWeight d nm w := rfl

theorem addWeight_cons_ne (p : String × List (Nat × ℚ))
    (d : List (String × List (Nat × ℚ))) (nm : String) (w : Nat × ℚ)
    (h : p.1 ≠ nm) :
    addWeight (p :: d) nm w = p :: addWeight d nm w := by
  have hp : (p.1 == nm) = false := beq_eq_false_iff_ne.mpr h
  unfold addWeight
  simp only [List.any_cons, hp, Bool.false_or]
  cases hd : d.any (fun q => q.1 == nm) <;> simp [hd, updAt, hp]

theorem updAt_updAt (nm : String) (xs ys : List (Nat × ℚ))
    (p : String × List (Nat × ℚ)) :
    updAt nm ys (updAt nm xs p) = updAt nm (xs ++ ys) p := by
  unfold updAt
  by_cases h : (p.1 == nm) = true
  · simp [h, List.append_assoc]
  · simp [h]

theorem mergeStep_push (d : List (String × List (Nat × ℚ))) (nm : String)
    (xs : List (Nat × ℚ)) (w : Nat × ℚ) :
    mergeStep d (nm, xs ++ [w]) = addWeight (mergeStep d (nm, xs)) nm w := by
  cases hd : d.any (fun q => q.1 == nm) with
  | true =>
    have h1 : mergeStep d (nm, xs ++ [w]) = d.map (updAt nm (xs ++ [w])) := by
      unfold mergeStep; rw [if_pos hd]
    have h2 : mergeStep d (nm, xs) = d.map (updAt nm xs) := by
      unfold mergeStep; rw [if_pos hd]
    have h3 : addWeight (d.map (updAt nm xs)) nm w
        = (d.map (updAt nm xs)).map (updAt nm [w]) := by
      unfold addWeight
      rw [if_pos ((any_key_map d nm xs nm).trans hd)]
    have h4 : (updAt nm [w] ∘ updAt nm xs) = updAt nm (xs ++ [w]) := by
      funext p
      exact updAt_updAt nm xs [w] p
    rw [h1, h2, h3, List.map_map, h4]
  | false =>
    have hne : ¬ (d.any (fun q => q.1 == nm) = true) := by simp [hd]
    have h1 : mergeStep d (nm, xs ++ [w]) = d ++ [(nm, xs ++ [w])] := by
      unfold mergeStep; rw [if_neg hne]
    have h2 : mergeStep d (nm, xs) = d ++ [(nm, xs)] := by
      unfold mergeStep; rw [if_neg hne]
    have hany : ((d ++ [(nm, xs)]).any (fun q => q.1 == nm)) = true := by
      simp [List.any_append]
    have h3 : addWeight (d ++ [(nm, xs)]) nm w
        = (d ++ [(nm, xs)]).map (updAt nm [w]) := by
      unfold addWeight; rw [if_pos hany]
    rw [h1, h2, h3, List.map_append, map_updAt_of_not_key d nm [w] hd]
    simp [updAt]

theorem updAt_comm_ne (n1 n2 : String) (y1 y2 : List (Nat × ℚ))
    (h : n1 ≠ n2) (p : String × List (Nat × ℚ)) :
    updAt n1 y1 (updAt n2 y2 p) = updAt n2 y2 (updAt n1 y1 p) := by
  by_cases h2 : (p.1 == n2) = true
  · have h1 : (p.1 == n1) = false := by
      rw [beq_eq_false_iff_ne]
      intro hx
      exact h (hx.symm.trans (eq_of_beq h2))
    simp [updAt, h1, h2]
  · by_cases h1 : (p.1 == n1) = true
    · simp [updAt, h1, h2]
    · simp [updAt, h1, h2]

theorem any_key_mergeStep (e : List (String × List (Nat × ℚ)))
    (q : String × List (Nat × ℚ)) (nm : String)
    (he : e.any (fun p => p.1 == nm) = true) :
    (mergeStep e q).any (fun p => p.1 == nm) = true := by
  unfold mergeStep
  split
  · rw [any_key_map]; exact he
  · simp [List.any_append, he]

theorem any_key_mergeStep_self (e : List (String × List (Nat × ℚ)))
    (q : String × List (Nat × ℚ)) :
    (mergeStep e q).any (fun p => p.1 == q.1) = true := by
  unfold mergeStep
  split
  · next h => rw [any_key_map]; exact h
  · simp [List.any_append]

theorem addWeight_mergeStep_comm (e : List (String × List (Nat × ℚ)))
    (q : String × List (Nat × ℚ)) (nm : String) (w : Nat × ℚ)
    (he : e.any (fun p => p.1 == nm) = true) (hq : q.1 ≠ nm) :
    addWeight (mergeStep e q) nm w = mergeStep (addWeight e nm w) q := by
  cases hq1 : e.any (fun p => p.1 == q.1) with
  | true =>
    have h1 : mergeStep e q = e.map (updAt q.1 q.2) := by
      unfold mergeStep; rw [if_pos hq1]
    have h2 : addWeight e nm w = e.map (updAt nm [w]) := by
      unfold addWeight; rw [if_pos he]
    have h3 : addWeight (e.map (updAt q.1 q.2)) nm w
        = (e.map (updAt q.1 q.2)).map (updAt nm [w]) := by
      unfold addWeight
      rw [if_pos ((any_key_map e q.1 q.2 nm).trans he)]
    have h4 : mergeStep (e.map (updAt nm [w])) q
        = (e.map (updAt nm [w])).map (updAt q.1 q.2) := by
      unfold mergeStep
      rw [if_pos ((any_key_map e nm [w] q.1).trans hq1)]
    have h5 : (updAt nm [w] ∘ updAt q.1 q.2) = (updAt q.1 q.2 ∘ updAt nm [w]) := by
      funext p
      exact updAt_comm_ne nm q.1 [w] q.2 (fun hx => hq hx.symm) p
    rw [h1, h3, h2, h4, List.map_map, List.map_map, h5]
  | false =>
    have hq1n : ¬ (e.any (fun p => p.1 == q.1) = true) := by simp [hq1]
    have h1 : mergeStep e q = e ++ [q] := by
      unfold mergeStep; rw [if_neg hq1n]
    have h2 : addWeight e nm w = e.map (updAt nm [w]) := by
      unfold addWeight; rw [if_pos he]
    have hany : ((e ++ [q]).any (fun p => p.1 == nm)) = true := by
      simp [List.any_append, he]
    have h3 : addWeight (e ++ [q]) nm w = (e ++ [q]).map (updAt nm [w]) := by
      unfold addWeight; rw [if_pos hany]
    have h4 : mergeStep (e.map (updAt nm [w])) q = e.map (updAt nm [w]) ++ [q] := by
      unfold mergeStep
      rw [if_neg (by rw [any_key_map]; exact hq1n)]
    rw [h1, h3, h2, h4, List.map_append]
    congr 1
    simp [updAt, beq_eq_false_iff_ne.mpr hq]

theorem addWeight_mergeWeights_comm (c : List (String × List (Nat × ℚ))) :
    ∀ (e : List (String × List (Nat × ℚ))) (nm : String) (w : Nat × ℚ),
      e.any (fun p => p.1 == nm) = true →
      (∀ q ∈ c, q.1 ≠ nm) →
      addWeight (mergeWeights e c) nm w = mergeWeights (addWeight e nm w) c := by
  induction c with
  | nil => intro e nm w _ _; rfl
  | cons q c ih =>
    intro e nm w he hc
    have hq : q.1 ≠ nm := hc q (List.mem_cons_self q c)
    show addWeight (mergeWeights (mergeStep e q) c) nm w = _
    rw [ih (mergeStep e q) nm w (any_key_mergeStep e q nm he)
        (fun r hr => hc r (List.mem_cons_of_mem q hr)),
      addWeight_mergeStep_comm e q nm w he hq]
    rfl

theorem keys_map_updAt (d : List (String × List (Nat × ℚ))) (nm : String)
    (ys : List (Nat × ℚ)) :
    (d.map (updAt nm ys)).map Prod.fst = d.map Prod.fst := by
  rw [List.map_map]
  exact List.map_congr_left (fun p _ => updAt_fst nm ys p)

theorem any_key_false_iff (d : List (String × List (Nat × ℚ))) (nm : String) :
    d.any (fun p => p.1 == nm) = false ↔ nm ∉ d.map Prod.fst := by
  induction d with
  | nil => simp
  | cons p d ih =>
    simp only [List.any_cons, Bool.or_eq_false_iff, List.map_cons,
      List.mem_cons, ih, beq_eq_false_iff_ne]
    constructor
    · rintro ⟨h1, h2⟩ (h | h)
      · exact h1 h.symm
      · exact h2 h
    · intro h
      exact ⟨fun hx => h (Or.inl hx.symm), fun hx => h (Or.inr hx)⟩

theorem nodupKeys_addWeight (d : List (String × List (Nat × ℚ)))
    (nm : String) (w : Nat × ℚ) (hd : nodupKeys d) :
    nodupKeys (addWeight d nm w) := by
  unfold addWeight
  cases ha : d.any (fun p => p.1 == nm) with
  | true =>
    rw [if_pos rfl]
    unfold nodupKeys
    rw [keys_map_updAt]
    exact hd
  | false =>
    rw [if_neg (by decide)]
    unfold nodupKeys
    rw [List.map_append, List.nodup_append]
    refine ⟨hd, List.nodup_singleton nm, ?_⟩
    intro a hak han
    have han1 : a = nm := by simpa using han
    rw [han1] at hak
    exact (any_key_false_iff d nm).mp ha hak

theorem nodupKeys_foldl_addEvent (evs : List (String × (Nat × ℚ))) :
    ∀ d, nodupKeys d → nodupKeys (evs.foldl addEvent d) := by
  induction evs with
  | nil => intro d hd; exact hd
  | cons e evs ih => intro d hd; exact ih _ (nodupKeys_addWeight d e.1 e.2 hd)

theorem nodupKeys_nil : nodupKeys [] := List.nodup_nil

theorem mergeWeights_addWeight (d0 : List (String × List (Nat × ℚ))) :
    ∀ (d : List (String × List (Nat × ℚ))) (nm : String) (w : Nat × ℚ),
      nodupKeys d0 →
      mergeWeights d (addWeight d0 nm w) = addWeight (mergeWeights d d0) nm w := by
  induction d0 with
  | nil =>
    intro d nm w _
    show mergeWeights d [(nm, [w])] = addWeight d nm w
    show mergeStep d (nm, [w]) = addWeight d nm w
    exact mergeStep_singleton d nm w
  | cons p d0 ih =>
    intro d nm w hnd
    have hkey : p.1 ∉ d0.map Prod.fst := by
      unfold nodupKeys at hnd
      rw [List.map_cons] at hnd
      exact (List.nodup_cons.mp hnd).1
    have hnd0 : nodupKeys d0 := by
      unfold nodupKeys at hnd ⊢
      rw [List.map_cons] at hnd
      exact (List.nodup_cons.mp hnd).2
    by_cases hp : p.1 = nm
    · have hanyd0 : d0.any (fun r => r.1 == nm) = false := by
        rw [any_key_false_iff, ← hp]
        exact hkey
      have h1 : addWeight (p :: d0) nm w = (p.1, p.2 ++ [w]) :: d0 := by
        unfold addWeight
        rw [if_pos (by simp [List.any_cons, hp])]
        rw [List.map_cons, map_updAt_of_not_key d0 nm [w] hanyd0]
        congr 1
        unfold updAt
        rw [if_pos (by simp [hp])]
      have h2 : mergeStep d (p.1, p.2 ++ [w]) = addWeight (mergeStep d p) p.1 w := by
        have h := mergeStep_push d p.1 p.2 w
        rw [Prod.mk.eta] at h
        exact h
      have hc : ∀ q ∈ d0, q.1 ≠ p.1 := by
        intro q hq hx
        exact hkey (hx ▸ List.mem_map_of_mem Prod.fst hq)
      calc mergeWeights d (addWeight (p :: d0) nm w)
          = mergeWeights (mergeStep d (p.1, p.2 ++ [w])) d0 := by rw [h1]; rfl
        _ = mergeWeights (addWeight (mergeStep d p) p.1 w) d0 := by rw [h2]
        _ = addWeight (mergeWeights (mergeStep d p) d0) p.1 w :=
            (addWeight_mergeWeights_comm d0 (mergeStep d p) p.1 w
              (any_key_mergeStep_self d p) hc).symm
        _ = addWeight (mergeWeights d (p :: d0)) nm w := by rw [hp]; rfl
    · have h1 : addWeight (p :: d0) nm w = p :: addWeight d0 nm w :=
        addWeight_cons_ne p d0 nm w hp
      calc mergeWeights d (addWeight (p :: d0) nm w)
          = mergeWeights (mergeStep d p) (addWeight d0 nm w) := by rw [h1]; rfl
        _ = addWeight (mergeWeights (mergeStep d p) d0) nm w :=
            ih (mergeStep d p) nm w hnd0
        _ = addWeight (mergeWeights d (p :: d0)) nm w := rfl

theorem mergeWeights_foldl_addEvent (evs : List (String × (Nat × ℚ))) :
    ∀ (d d0 : List (String × List (Nat × ℚ))), nodupKeys d0 →
      mergeWeights d (evs.foldl addEvent d0)
        = evs.foldl addEvent (mergeWeights d d0) := by
  induction evs with
  | nil => intro d d0 _; rfl
  | cons e evs ih =>
    intro d d0 h0
    show mergeWeights d (evs.foldl addEvent (addEvent d0 e)) = _
    rw [ih d (addEvent d0 e) (nodupKeys_addWeight d0 e.1 e.2 h0)]
    show evs.foldl addEvent (mergeWeights d (addWeight d0 e.1 e.2)) = _
    rw [mergeWeights_addWeight d0 d e.1 e.2 h0]
    rfl

theorem weightEvents_append (obj : Object) (bn : List String)
    (l1 l2 : List (Nat × Vertex)) :
    weightEvents obj bn (l1 ++ l2)
      = weightEvents obj bn l1 ++ weightEvents obj bn l2 := by
  unfold weightEvents
  rw [List.flatMap_append]

theorem foldl_mergeWeights_eq (obj : Object) (bn : List String) :
    ∀ (chs : List (List (Nat × Vertex))) (d : List (String × List (Nat × ℚ))),
      (chs.map (processChunk obj bn)).foldl mergeWeights d
        = (weightEvents obj bn chs.flatten).foldl addEvent d := by
  intro chs
  induction chs with
  | nil => intro d; rfl
  | cons ch chs ih =>
    intro d
    rw [List.map_cons, List.foldl_cons, ih, processChunk_eq_event obj bn ch,
      mergeWeights_foldl_addEvent (weightEvents obj bn ch) d [] nodupKeys_nil,
      List.flatten_cons, weightEvents_append, List.foldl_append]
    rfl

theorem chunksOf_flatten {α : Type} (n : Nat) (hn : 1 ≤ n) (l : List α) :
    (chunksOf n l).flatten = l := by
  have key : ∀ (k : Nat) (l : List α), l.length ≤ k →
      (chunksOf n l).flatten = l := by
    intro k
    induction k with
    | zero =>
      intro l hl
      have h0 : l = [] := List.eq_nil_of_length_eq_zero (Nat.le_zero.mp hl)
      subst h0
      rw [chunksOf]
      rfl
    | succ k ih =>
      intro l hl
      match l with
      | [] => rw [chunksOf]; rfl
      | a :: as =>
        rw [chunksOf]
        rw [dif_neg (by omega : ¬ n = 0)]
        rw [List.flatten_cons]
        rw [ih ((a :: as).drop n)
          (by rw [List.length_drop]; simp only [List.length_cons]
              simp only [List.length_cons] at hl
              omega)]
        exact List.take_append_drop n (a :: as)
  exact key l.length l (Nat.le_refl _)

theorem optimize_weight_calculation_eq_events (obj : Object)
    (bn : List String) (cs : Nat) (hcs : 1 ≤ cs) :
    optimize_weight_calculation obj bn cs
      = (weightEvents obj bn obj.mesh.vertices.enum).foldl addEvent [] := by
  show ((chunksOf cs obj.mesh.vertices.enum).map (processChunk obj bn)).foldl
      mergeWeights [] = _
  rw [foldl_mergeWeights_eq obj bn (chunksOf cs obj.mesh.vertices.enum) [],
    chunksOf_flatten cs hcs]

theorem owc_total_eq (obj : Object) (bn : List String) (cs : Nat)
    (hcs : 1 ≤ cs) :
    optimize_weight_calculation obj bn cs
      = optimize_weight_calculation obj bn obj.mesh.vertices.length := by
  cases hv : obj.mesh.vertices.length with
  | zero =>
    have hnil : obj.mesh.vertices = [] := List.eq_nil_of_length_eq_zero hv
    rw [optimize_weight_calculation_eq_events obj bn cs hcs]
    show _ = ((chunksOf 0 obj.mesh.vertices.enum).map (processChunk obj bn)).foldl
        mergeWeights []
    rw [hnil]
    rw [show ([] : List Vertex).enum = ([] : List (Nat × Vertex)) from rfl]
    rw [chunksOf]
    rfl
  | succ k =>
    rw [optimize_weight_calculation_eq_events obj bn cs hcs,
      optimize_weight_calculation_eq_events obj bn (Nat.succ k)
        (Nat.succ_le_succ (Nat.zero_le k))]

theorem lookupA_map_updAt_ne (k nm : String) (ys : List (Nat × ℚ))
    (h : k ≠ nm) :
    ∀ (d : List (String × List (Nat × ℚ))),
      lookupA (d.map (updAt k ys)) nm = lookupA d nm := by
  intro d
  induction d with
  | nil => rfl
  | cons q d ih =>
    rw [List.map_cons]
    simp only [lookupA, updAt_fst]
    by_cases hq : (q.1 == nm) = true
    · rw [if_pos hq, if_pos hq]
      have hqk : ¬ ((q.1 == k) = true) := fun hx =>
        h ((eq_of_beq hx).symm.trans (eq_of_beq hq))
      congr 1
      unfold updAt
      rw [if_neg hqk]
    · rw [if_neg hq, if_neg hq, ih]

theorem lookupA_addWeight (k nm : String) (w : Nat × ℚ) :
    ∀ (d : List (String × List (Nat × ℚ))),
      lookupA (addWeight d k w) nm
        = if k = nm then some (((lookupA d nm).getD []) ++ [w])
          else lookupA d nm := by
  intro d
  induction d with
  | nil =>
    by_cases hk : k = nm
    · subst hk
      simp [addWeight, lookupA]
    · simp [addWeight, lookupA, hk, beq_eq_false_iff_ne.mpr hk]
  | cons p d ih =>
    by_cases hpk : (p.1 == k) = true
    · have hany : ((p :: d).any (fun q => q.1 == k)) = true := by
        simp [List.any_cons, hpk]
      have h1 : addWeight (p :: d) k w = updAt k [w] p :: d.map (updAt k [w]) := by
        unfold addWeight
        rw [if_pos hany, List.map_cons]
      rw [h1]
      by_cases hk : k = nm
      · subst hk
        have hupd : updAt k [w] p = (p.1, p.2 ++ [w]) := by
          unfold updAt; rw [if_pos hpk]
        simp [lookupA, hupd, hpk]
      · have hpn : (p.1 == nm) = false := by
          rw [beq_eq_false_iff_ne]
          intro hx
          exact hk ((eq_of_beq hpk).symm.trans hx)
        have hupdf : (updAt k [w] p).1 = p.1 := updAt_fst k [w] p
        simp only [lookupA, hupdf]
        rw [if_neg (by simp [hpn]), if_neg hk, if_neg (by simp [hpn])]
        exact lookupA_map_updAt_ne k nm [w] hk d
    · have hpkne : p.1 ≠ k := fun hx => hpk (beq_iff_eq.mpr hx)
      rw [addWeight_cons_ne p d k w hpkne]
      by_cases hq : (p.1 == nm) = true
      · have hkn : k ≠ nm := fun hx => hpkne ((eq_of_beq hq).trans hx.symm)
        simp only [lookupA, if_pos hq, if_neg hkn]
      · simp only [lookupA, if_neg hq]
        exact ih

theorem collectOpt_push (o : Option (List (Nat × ℚ))) (a : Nat × ℚ)
    (l : List (Nat × ℚ)) :
    collectOpt (some ((o.getD []) ++ [a])) l = collectOpt o (a :: l) := by
  cases o with
  | none => rfl
  | some xs =>
    show some ((xs ++ [a]) ++ l) = some (xs ++ (a :: l))
    exact congrArg some (List.append_assoc xs [a] l)

theorem lookupA_foldl_addEvent (nm : String) :
    ∀ (evs : List (String × (Nat × ℚ))) (d : List (String × List (Nat × ℚ))),
      lookupA (evs.foldl addEvent d) nm
        = collectOpt (lookupA d nm)
            ((evs.filter (fun e => e.1 == nm)).map Prod.snd) := by
  intro evs
  induction evs with
  | nil =>
    intro d
    show lookupA d nm = collectOpt (lookupA d nm) []
    cases lookupA d nm with
    | none => rfl
    | some xs =>
      show some xs = some (xs ++ [])
      rw [List.append_nil]
  | cons e evs ih =>
    intro d
    show lookupA (evs.foldl addEvent (addEvent d e)) nm = _
    rw [ih (addEvent d e)]
    show collectOpt (lookupA (addWeight d e.1 e.2) nm) _ = _
    rw [lookupA_addWeight e.1 nm e.2 d]
    by_cases he : e.1 = nm
    · rw [if_pos he, List.filter_cons_of_pos (by simp [he]), List.map_cons,
        collectOpt_push]
    · rw [if_neg he, List.filter_cons_of_neg (by simp [he])]

theorem lookupA_owc (obj : Object) (bn : List String) (cs : Nat)
    (hcs : 1 ≤ cs) (nm : String) :
    lookupA (optimize_weight_calculation obj bn cs) nm
      = if groupPairs obj bn nm = [] then none
        else some (groupPairs obj bn nm) := by
  rw [optimize_weight_calculation_eq_events obj bn cs hcs,
    lookupA_foldl_addEvent nm (weightEvents obj bn obj.mesh.vertices.enum) []]
  show collectOpt none (groupPairs obj bn nm) = _
  cases hg : groupPairs obj bn nm with
  | nil =>
    rw [if_pos rfl]
    rfl
  | cons a l =>
    rw [if_neg (List.cons_ne_nil a l)]
    rfl

theorem assignEvent_some_iff (obj : Object) (bn : List String) (idx : Nat)
    (g : GroupAssign) (e : String × (Nat × ℚ)) :
    assignEvent obj bn idx g = some e ↔
      obj.vertex_groups[g.group]? = some e.1 ∧ bn.contains e.1 = true ∧
        e.2 = (idx, g.weight) := by
  unfold assignEvent
  cases hv : obj.vertex_groups[g.group]? with
  | none => simp
  | some vg =>
    show (if bn.contains vg = true then some (vg, (idx, g.weight))
          else none) = some e ↔ _
    by_cases hb : bn.contains vg = true
    · rw [if_pos hb]
      constructor
      · intro h
        injection h with h
        subst h
        exact ⟨rfl, hb, rfl⟩
      · rintro ⟨h1, h2, h3⟩
        injection h1 with h1
        have h4 : e = (vg, (idx, g.weight)) := by
          cases e with
          | mk a b =>
            simp only at h1 h3
            rw [h1, h3]
        rw [h4]
    · rw [if_neg hb]
      constructor
      · intro h
        exact Option.noConfusion h
      · rintro ⟨h1, h2, _⟩
        injection h1 with h1
        rw [← h1] at h2
        exact absurd h2 hb

theorem groupPairs_ne_nil_iff (obj : Object) (bn : List String) (nm : String) :
    groupPairs obj bn nm ≠ [] ↔
      (nm ∈ bn ∧ ∃ p ∈ obj.mesh.vertices.enum, ∃ g ∈ p.2.groups,
        obj.vertex_groups[g.group]? = some nm) := by
  unfold groupPairs
  rw [Ne, List.map_eq_nil_iff, List.filter_eq_nil_iff]
  push_neg
  constructor
  · rintro ⟨e, he, hme⟩
    have hnm : e.1 = nm := by
      have hb : (e.1 == nm) = true := by
        cases hx : (e.1 == nm) with
        | true => rfl
        | false => exact absurd hx (by simpa using hme)
      exact eq_of_beq hb
    unfold weightEvents at he
    rcases List.mem_flatMap.mp he with ⟨p, hp, hpe⟩
    rcases List.mem_filterMap.mp hpe with ⟨g, hg, hge⟩
    rcases (assignEvent_some_iff obj bn p.1 g e).mp hge with ⟨h1, h2, _⟩
    rw [hnm] at h1 h2
    exact ⟨List.elem_iff.mp h2, p, hp, g, hg, h1⟩
  · rintro ⟨hnm, p, hp, g, hg, hv⟩
    refine ⟨(nm, (p.1, g.weight)), ?_, by simp⟩
    unfold weightEvents
    rw [List.mem_flatMap]
    refine ⟨p, hp, List.mem_filterMap.mpr ⟨g, hg, ?_⟩⟩
    exact (assignEvent_some_iff obj bn p.1 g (nm, (p.1, g.weight))).mpr
      ⟨hv, List.elem_iff.mpr hnm, rfl⟩

theorem events_idx_bound (obj : Object) (bn : List String) (idx : Nat)
    (gs : List GroupAssign) (e : String × (Nat × ℚ))
    (he : e ∈ gs.filterMap (assignEvent obj bn idx)) : e.2.1 = idx := by
  rcases List.mem_filterMap.mp he with ⟨g, _, hg⟩
  rcases (assignEvent_some_iff obj bn idx g e).mp hg with ⟨_, _, h2⟩
  rw [h2]

theorem weightEvents_idx (obj : Object) (bn : List String)
    (l : List (Nat × Vertex)) (f : String × (Nat × ℚ))
    (hf : f ∈ weightEvents obj bn l) : ∃ q ∈ l, f.2.1 = q.1 := by
  unfold weightEvents at hf
  rcases List.mem_flatMap.mp hf with ⟨q, hq, hfq⟩
  exact ⟨q, hq, events_idx_bound obj bn q.1 q.2.groups f hfq⟩

theorem mem_enumFrom_le {α : Type} (l : List α) :
    ∀ (n : Nat) (p : Nat × α), p ∈ List.enumFrom n l → n ≤ p.1 := by
  induction l with
  | nil => intro n p h; cases h
  | cons a l ih =>
    intro n p h
    rw [List.enumFrom_cons] at h
    rcases List.mem_cons.mp h with h | h
    · rw [h]
    · exact Nat.le_of_succ_le (ih (n + 1) p h)

theorem enumFrom_pairwise {α : Type} (l : List α) :
    ∀ (n : Nat),
      (List.enumFrom n l).Pairwise (fun p q => p.1 ≤ q.1) := by
  induction l with
  | nil => intro n; exact List.Pairwise.nil
  | cons a l ih =>
    intro n
    rw [List.enumFrom_cons]
    refine List.Pairwise.cons ?_ (ih (n + 1))
    intro b hb
    exact Nat.le_of_succ_le (mem_enumFrom_le l (n + 1) b hb)

theorem pairwise_le_weightEvents (obj : Object) (bn : List String) :
    ∀ (l : List (Nat × Vertex)),
      l.Pairwise (fun p q => p.1 ≤ q.1) →
      (weightEvents obj bn l).Pairwise (fun e f => e.2.1 ≤ f.2.1) := by
  intro l
  induction l with
  | nil => intro _; exact List.Pairwise.nil
  | cons p l ih =>
    intro hl
    rcases List.pairwise_cons.mp hl with ⟨hrel, hl2⟩
    unfold weightEvents
    rw [List.flatMap_cons, List.pairwise_append]
    refine ⟨?_, ih hl2, ?_⟩
    · refine List.pairwise_of_forall_mem_list ?_
      intro e he f hf
      rw [events_idx_bound obj bn p.1 p.2.groups e he,
        events_idx_bound obj bn p.1 p.2.groups f hf]
    · intro e he f hf
      have hfw : f ∈ weightEvents obj bn l := hf
      rcases weightEvents_idx obj bn l f hfw with ⟨r, hr, hrf⟩
      rw [events_idx_bound obj bn p.1 p.2.groups e he, hrf]
      exact hrel r hr

theorem groupPairs_sorted (obj : Object) (bn : List String) (nm : String) :
    ((groupPairs obj bn nm).map Prod.fst).Pairwise (fun a b => a ≤ b) := by
  unfold groupPairs
  rw [List.map_map, List.pairwise_map]
  have h1 : (weightEvents obj bn obj.mesh.vertices.enum).Pairwise
      (fun e f => e.2.1 ≤ f.2.1) :=
    pairwise_le_weightEvents obj bn obj.mesh.vertices.enum
      (enumFrom_pairwise obj.mesh.vertices 0)
  exact h1.sublist (List.filter_sublist _)

/-- C9: for every object, every list of bone names and every chunk size
at least 1, optimize_weight_calculation returns the same dictionary as
with any other chunk size at least 1, in particular as the single-chunk
computation with chunk size equal to the total vertex count; the result
maps a name to the collected pairs exactly when the name is in
bone_names and is named, under a valid group index, by some assignment
of some vertex, and the pairs of each name carry the (vertex index,
weight) data of those assignments in ascending vertex-index order. -/
theorem C9_optimize_weight_calculation (obj : Object) (bone_names : List String)
    (chunk_size : Nat) (hcs : 1 ≤ chunk_size) :
    (∀ cs2, 1 ≤ cs2 →
      optimize_weight_calculation obj bone_names chunk_size
        = optimize_weight_calculation obj bone_names cs2) ∧
    optimize_weight_calculation obj bone_names chunk_size
      = optimize_weight_calculation obj bone_names obj.mesh.vertices.length ∧
    (∀ nm, lookupA (optimize_weight_calculation obj bone_names chunk_size) nm
        = if groupPairs obj bone_names nm = [] then none
          else some (groupPairs obj bone_names nm)) ∧
    (∀ nm, groupPairs obj bone_names nm ≠ [] ↔
      (nm ∈ bone_names ∧ ∃ p ∈ obj.mesh.vertices.enum, ∃ g ∈ p.2.groups,
        obj.vertex_groups[g.group]? = some nm)) ∧
    (∀ nm, ((groupPairs obj bone_names nm).map Prod.fst).Pairwise
      (fun a b => a ≤ b)) := by
  refine ⟨?_, owc_total_eq obj bone_names chunk_size hcs,
    lookupA_owc obj bone_names chunk_size hcs,
    groupPairs_ne_nil_iff obj bone_names,
    groupPairs_sorted obj bone_names⟩
  intro cs2 h2
  rw [optimize_weight_calculation_eq_events obj bone_names chunk_size hcs,
    optimize_weight_calculation_eq_events obj bone_names cs2 h2]

/-- Witness for C9 at a concrete two-vertex object with chunk size 1. -/
theorem C9_optimize_weight_calculation_witness :
    1 ≤ 1 ∧
    ((∀ cs2, 1 ≤ cs2 →
        optimize_weight_calculation wCube6 ["Bone1", "Bone2"] 1
          = optimize_weight_calculation wCube6 ["Bone1", "Bone2"] cs2) ∧
      optimize_weight_calculation wCube6 ["Bone1", "Bone2"] 1
        = optimize_weight_calculation wCube6 ["Bone1", "Bone2"]
            wCube6.mesh.vertices.length ∧
      (∀ nm, lookupA (optimize_weight_calculation wCube6 ["Bone1", "Bone2"] 1) nm
          = if groupPairs wCube6 ["Bone1", "Bone2"] nm = [] then none
            else some (groupPairs wCube6 ["Bone1", "Bone2"] nm)) ∧
      (∀ nm, groupPairs wCube6 ["Bone1", "Bone2"] nm ≠ [] ↔
        (nm ∈ ["Bone1", "Bone2"] ∧ ∃ p ∈ wCube6.mesh.vertices.enum,
          ∃ g ∈ p.2.groups, wCube6.vertex_groups[g.group]? = some nm)) ∧
      (∀ nm, ((groupPairs wCube6 ["Bone1", "Bone2"] nm).map Prod.fst).Pairwise
        (fun a b => a ≤ b))) :=
  ⟨by decide,
    C9_optimize_weight_calculation wCube6 ["Bone1", "Bone2"] 1 (by decide)⟩

end Avastar
